import Mathlib

set_option maxRecDepth 8000

/-!
# Verification of the hikvision-tooling SADP core

A shallow embedding of the Go sources of `cameronnewman/hikvision-tooling`
(internal/sadp/scanner.go, internal/sadp command builder, internal/network/arp.go)
together with proofs about the embedded definitions.

Modelling conventions:
* Go strings are modelled as Lean `String` (sequences of Unicode scalar values);
  byte-level slicing coincides with character slicing for the ASCII data the
  repository manipulates, and case mapping is modelled on the ASCII range.
* Go `int` is modelled as `Int`, IPv4 addresses as `Nat` below `2 ^ 32`.
* Fallible operations return `Option`/`Except`; a Go run-time panic (slice out
  of range) is modelled as `none`.
* Effectful functions are split into their pure decision skeleton (explicitly
  passed inputs such as the generated UUID, abstract network outcomes) and the
  I/O they drive; the theorems are about the pure skeletons.
-/

namespace Hik

/-- `Device` from internal/sadp/scanner.go (lines 23-56): one discovered unit.
`XMLName` carries no data beyond the schema element name and is omitted;
`ReceivedTime` (a Go `time.Time`, tagged `xml:"-"`) is modelled as a `Nat`
timestamp. Field order is the Go struct (= XML schema) order. -/
structure Device where
  Uuid              : String := ""
  Types             : String := ""
  DeviceType        : String := ""
  DeviceDescription : String := ""
  DeviceSN          : String := ""
  MAC               : String := ""
  IPv4Address       : String := ""
  IPv4SubnetMask    : String := ""
  IPv4Gateway       : String := ""
  IPv6Address       : String := ""
  IPv6Gateway       : String := ""
  IPv6MaskLen       : Int := 0
  DHCP              : String := ""
  CommandPort       : Int := 0
  HttpPort          : Int := 0
  DSPVersion        : String := ""
  BootTime          : String := ""
  SoftwareVersion   : String := ""
  Activated         : String := ""
  PasswordResetMode : String := ""
  SupportHCPlatform : String := ""
  HCPlatformEnable  : String := ""
  SupportReset      : String := ""
  Encoder           : String := ""
  OEMInfo           : String := ""
  AnalogChannelNum  : Int := 0
  DigitalChannelNum : Int := 0
  SDKOverTLSPort    : Int := 0
  SDKServerStatus   : String := ""
  AdapterIP         : String := ""
  ReceivedTime      : Nat := 0
  deriving Repr, DecidableEq

/-! ## The discovery registry (scanner.go lines 125-133, 184-190)

`Scanner.devices` is a Go `map[string]*Device` keyed by the normalized MAC.
Each insertion (scanner.go lines 184-189) happens under `deviceMutex.Lock()`,
so a `Discover()` call is a sequence of atomic check-then-insert steps; we
model the registry as an association list in insertion order and one
`Discover()` call as a left fold of the insertion step over the sequence of
successfully parsed devices, in arrival order. -/

/-- Go map lookup `s.devices[mac]` on the association-list model. -/
def regFind (mac : String) : List (String × Device) → Option Device
  | [] => none
  | p :: rest => if p.1 = mac then some p.2 else regFind mac rest

/-- One atomic check-then-insert step (scanner.go lines 184-189):
`if _, exists := s.devices[device.MAC]; !exists { s.devices[device.MAC] = device }`. -/
def registryInsert (reg : List (String × Device)) (d : Device) : List (String × Device) :=
  match regFind d.MAC reg with
  | some _ => reg
  | none => reg ++ [(d.MAC, d)]

/-- The registry contents after one `Discover()` call whose parsed responses
arrived in the order given by `arrivals`. -/
def discoverRegistry (arrivals : List Device) : List (String × Device) :=
  arrivals.foldl registryInsert []

/-- The snapshot built by `Discover()` (scanner.go lines 128-131): the list of
registry values. -/
def registrySnapshot (reg : List (String × Device)) : List Device :=
  reg.map (fun p => p.2)

/-! ## `Truncate` (scanner.go lines 258-264)

```go
func Truncate(s string, maxLen int) string {
    if len(s) <= maxLen { return s }
    return s[:maxLen-3] + "..."
}
```
Go's slice expression `s[:k]` panics at run time when `k` is negative (or greater
than `len(s)`); the panic is modelled as `none`. -/

/-- Go slice expression `s[:k]`: defined only for `0 ≤ k ≤ len(s)`. -/
def goSliceTo (s : String) (k : Int) : Option String :=
  if 0 ≤ k ∧ k ≤ (s.length : Int) then some (String.mk (s.data.take k.toNat)) else none

/-- `Truncate` from scanner.go lines 259-264. -/
def Truncate (s : String) (maxLen : Int) : Option String :=
  if (s.length : Int) ≤ maxLen then some s
  else (goSliceTo s (maxLen - 3)).map (fun t => t ++ "...")

/-! ## `ExpandCIDR` (internal/network/arp.go lines 202-236)

```go
func ExpandCIDR(cidr string) ([]string, error) {
    ip, ipnet, err := net.ParseCIDR(cidr) ...
    for ip := ip.Mask(ipnet.Mask); ipnet.Contains(ip); incrementIP(ip) {
        ones, bits := ipnet.Mask.Size()
        if bits-ones <= 8 {
            lastOctet := ip[len(ip)-1]
            if lastOctet == 0 || lastOctet == 255 { continue }
        }
        ... append(ips, ipCopy.String())
    }
}
```
Modelled at the parsed level for IPv4: a valid CIDR is a 32-bit address `ip`
(as a `Nat`) plus a prefix length `p` with `1 ≤ p ≤ 32`. The loop starts at the
masked base `ip.Mask(mask)`, visits every address of the prefix in ascending
order, and `continue`s (skips) an address exactly when the host-bit count
`bits - ones = 32 - p` is at most 8 and its last octet (`a % 256`) is 0 or 255.
Addresses are kept as `Nat`s (the code renders them to dotted strings, which
is injective and does not affect the counting claims). For `p = 0` the Go
loop never terminates (`incrementIP` wraps around inside the prefix), hence
the `1 ≤ p` hypothesis. -/

/-- Skip test of `ExpandCIDR` (arp.go lines 215-220): with `h` host bits, the
address `a` is kept unless `h ≤ 8` and its last octet is 0 or 255. -/
def keepAddr (h : Nat) (a : Nat) : Bool :=
  if h ≤ 8 ∧ (a % 256 = 0 ∨ a % 256 = 255) then false else true

/-- `ExpandCIDR` (arp.go lines 202-227) on a parsed IPv4 CIDR. -/
def expandCIDR (ip : Nat) (p : Nat) : List Nat :=
  let h := 32 - p
  let base := ip / 2 ^ h * 2 ^ h
  ((List.range (2 ^ h)).map (fun i => base + i)).filter (keepAddr h)

/-! ## MAC utilities (internal/network/arp.go)

Go's `strings.ToLower`/`strings.ToUpper` are modelled on the ASCII range (all
MAC/OUI data in the repository is ASCII); `strings.ReplaceAll(s, "-", ":")` with
a one-character pattern is a per-character map; `strings.Split(s, ":")` splits
at every colon keeping empty fields; `strings.Join(parts, ":")` is
`List.intercalate`. -/

/-- ASCII case-fold to lower (models `strings.ToLower` on ASCII data). -/
def goLowerChar (c : Char) : Char :=
  if 'A' ≤ c ∧ c ≤ 'Z' then Char.ofNat (c.toNat + 32) else c

/-- ASCII case-fold to upper (models `strings.ToUpper` on ASCII data). -/
def goUpperChar (c : Char) : Char :=
  if 'a' ≤ c ∧ c ≤ 'z' then Char.ofNat (c.toNat - 32) else c

/-- `strings.ToLower` on ASCII data. -/
def goToLower (s : String) : String := String.mk (s.data.map goLowerChar)

/-- `strings.ReplaceAll(s, "-", ":")`. -/
def dashToColon (s : String) : String :=
  String.mk (s.data.map (fun c => if c = '-' then ':' else c))

/-- `strings.Split(s, ":")` over the character list: split at every colon,
keeping empty fields. -/
def splitColon : List Char → List (List Char)
  | [] => [[]]
  | c :: rest =>
    match splitColon rest with
    | [] => []
    | g :: gs => if c = ':' then [] :: g :: gs else (c :: g) :: gs

/-- `HikvisionOUIs` from arp.go lines 18-36. -/
def HikvisionOUIs : List String :=
  ["00:0d:c5", "28:57:be", "44:19:b6", "54:c4:15", "80:cc:9c", "a4:14:37",
   "bc:ad:28", "c0:56:e3", "c4:2f:90", "e0:2f:6d", "f4:52:14", "48:40:a9",
   "8c:e7:48", "4c:bd:8f", "18:68:cb", "44:47:cc", "e4:24:6c"]

/-- `IsHikvisionMAC` from arp.go lines 137-153: lower-case, normalize dashes to
colons, split on colons; fewer than 3 groups is `false`, otherwise compare the
first three groups joined by colons against the OUI allow-list. -/
def IsHikvisionMAC (mac : String) : Bool :=
  let m := dashToColon (goToLower mac)
  let parts := splitColon m.data
  if parts.length < 3 then false
  else HikvisionOUIs.contains (String.mk (List.intercalate [':'] (parts.take 3)))

/-! ## The command catalog and `BuildCommandXML` (internal/sadp command builder)

`fmt.Sprintf` on the catalog's templates only uses the verbs `%s` (string) and
`%d` (decimal integer), consumed positionally; it is modelled by `sprintf`
below. The freshly generated correlation id (`probeUUID := uuid.New().String()`)
is an explicit argument of the embedded `BuildCommandXML`. -/

/-- Decimal digit character. -/
def digitChar : Nat → Char
  | 0 => '0' | 1 => '1' | 2 => '2' | 3 => '3' | 4 => '4'
  | 5 => '5' | 6 => '6' | 7 => '7' | 8 => '8' | _ => '9'

/-- Most-significant-first decimal digits; `fuel` bounds the recursion
(structural, so the kernel can evaluate it; any `fuel > log10 n` gives the
same digits). -/
def natDigits : Nat → Nat → List Char
  | 0, _ => []
  | fuel + 1, n => if n < 10 then [digitChar n] else natDigits fuel (n / 10) ++ [digitChar (n % 10)]

/-- Decimal rendering of a `Nat`. -/
def natRepr (n : Nat) : List Char := natDigits (n + 1) n

/-- Decimal rendering of a Go `int` (`%d` / `strconv.Itoa`). -/
def intRepr (n : Int) : List Char :=
  if n < 0 then '-' :: natRepr (-n).toNat else natRepr n.toNat

/-- A positional `fmt.Sprintf` argument: `%s` takes a string, `%d` an int. -/
inductive GoArg
  | s (v : String)
  | d (n : Int)

/-- `fmt.Sprintf` restricted to the `%s`/`%d` verbs used by the catalog. -/
def goSprintfAux : List Char → List GoArg → List Char
  | '%' :: 's' :: rest, GoArg.s v :: args => v.data ++ goSprintfAux rest args
  | '%' :: 'd' :: rest, GoArg.d n :: args => intRepr n ++ goSprintfAux rest args
  | c :: rest, args => c :: goSprintfAux rest args
  | [], _ => []

/-- `fmt.Sprintf(fmt, args...)`. -/
def sprintf (fmt : String) (args : List GoArg) : String :=
  String.mk (goSprintfAux fmt.data args)

/-- `Command` from the command builder source (lines 14-20). -/
structure Command where
  Name        : String
  Description : String
  Template    : String
  NeedsMAC    : Bool
  NeedsPass   : Bool
  deriving Repr, DecidableEq

/-- The `Commands` catalog (command builder lines 23-129), one entry per key. -/
def inquiryCmd : Command :=
  { Name := "inquiry", Description := "Get device information",
    Template := "<?xml version=\"1.0\" encoding=\"utf-8\"?><Probe><Uuid>%s</Uuid><Types>inquiry</Types></Probe>",
    NeedsMAC := false, NeedsPass := false }

def inquiryV32Cmd : Command :=
  { Name := "inquiry_v32", Description := "Get device information (v32 format)",
    Template := "<?xml version=\"1.0\" encoding=\"utf-8\"?><Probe><Uuid>%s</Uuid><Types>inquiry_v32</Types></Probe>",
    NeedsMAC := false, NeedsPass := false }

def exchangecodeCmd : Command :=
  { Name := "exchangecode", Description := "Get exchange code for password reset",
    Template := "<?xml version=\"1.0\" encoding=\"utf-8\"?><Probe><Uuid>%s</Uuid><MAC>%s</MAC><Types>exchangecode</Types><Code></Code></Probe>",
    NeedsMAC := true, NeedsPass := false }

def getencryptstringCmd : Command :=
  { Name := "getencryptstring", Description := "Get encryption string",
    Template := "<?xml version=\"1.0\" encoding=\"utf-8\"?><Probe><Uuid>%s</Uuid><MAC>%s</MAC><Types>getencryptstring</Types></Probe>",
    NeedsMAC := true, NeedsPass := false }

def getencryptstringV31Cmd : Command :=
  { Name := "getencryptstring_v31", Description := "Get encryption string (v31 format)",
    Template := "<?xml version=\"1.0\" encoding=\"utf-8\"?><Probe><Uuid>%s</Uuid><MAC>%s</MAC><Types>getencryptstring_v31</Types></Probe>",
    NeedsMAC := true, NeedsPass := false }

def activateCmd : Command :=
  { Name := "activate", Description := "Activate an inactive device with a new password",
    Template := "<?xml version=\"1.0\" encoding=\"utf-8\"?><Probe><Uuid>%s</Uuid><MAC>%s</MAC><Types>activate</Types><Password>%s</Password></Probe>",
    NeedsMAC := true, NeedsPass := true }

def updateCmd : Command :=
  { Name := "update", Description := "Update device network parameters",
    Template := "<?xml version=\"1.0\" encoding=\"utf-8\"?><Probe><Uuid>%s</Uuid><Types>update</Types><PWErrorParse>true</PWErrorParse><MAC>%s</MAC><Password>%s</Password><IPv4Address>%s</IPv4Address><CommandPort>%d</CommandPort><IPv4SubnetMask>%s</IPv4SubnetMask><IPv4Gateway>%s</IPv4Gateway><DHCP>%s</DHCP></Probe>",
    NeedsMAC := true, NeedsPass := true }

def rebootCmd : Command :=
  { Name := "reboot", Description := "Reboot the device",
    Template := "<?xml version=\"1.0\" encoding=\"utf-8\"?><Probe><Uuid>%s</Uuid><MAC>%s</MAC><Types>reboot</Types><Password>%s</Password></Probe>",
    NeedsMAC := true, NeedsPass := true }

def restoreCmd : Command :=
  { Name := "restore", Description := "Restore device to factory defaults",
    Template := "<?xml version=\"1.0\" encoding=\"utf-8\"?><Probe><Uuid>%s</Uuid><MAC>%s</MAC><Types>restore</Types><Password>%s</Password></Probe>",
    NeedsMAC := true, NeedsPass := true }

def setmailboxCmd : Command :=
  { Name := "setmailbox", Description := "Set recovery email address",
    Template := "<?xml version=\"1.0\" encoding=\"utf-8\"?><Probe><Uuid>%s</Uuid><MAC>%s</MAC><Types>SetMailBox</Types><MailBox>%s</MailBox><Password>%s</Password></Probe>",
    NeedsMAC := true, NeedsPass := true }

def ezvizunbindCmd : Command :=
  { Name := "ezvizunbind", Description := "Unbind device from Ezviz cloud",
    Template := "<?xml version=\"1.0\" encoding=\"utf-8\"?><Probe><Uuid>%s</Uuid><MAC>%s</MAC><Types>ezvizUnbind</Types><Password>%s</Password></Probe>",
    NeedsMAC := true, NeedsPass := true }

def getbindlistCmd : Command :=
  { Name := "getbindlist", Description := "Get device binding list",
    Template := "<?xml version=\"1.0\" encoding=\"utf-8\"?><Probe><Uuid>%s</Uuid><MAC>%s</MAC><Types>getBindList</Types></Probe>",
    NeedsMAC := true, NeedsPass := false }

def getqrcodesCmd : Command :=
  { Name := "getqrcodes", Description := "Get QR codes for device",
    Template := "<?xml version=\"1.0\" encoding=\"utf-8\"?><Probe><Uuid>%s</Uuid><MAC>%s</MAC><Types>GetQRcodes</Types></Probe>",
    NeedsMAC := true, NeedsPass := false }

def resetpasswordCmd : Command :=
  { Name := "resetpassword", Description := "Reset password using security code",
    Template := "<?xml version=\"1.0\" encoding=\"utf-8\"?><Probe><Uuid>%s</Uuid><MAC>%s</MAC><Types>resetPassword</Types><Code>%s</Code><Password>%s</Password></Probe>",
    NeedsMAC := true, NeedsPass := true }

def securitycodeCmd : Command :=
  { Name := "securitycode", Description := "Submit security code for password reset",
    Template := "<?xml version=\"1.0\" encoding=\"utf-8\"?><Probe><Uuid>%s</Uuid><MAC>%s</MAC><Types>securityCode</Types><SecurityCode>%s</SecurityCode><Password>%s</Password></Probe>",
    NeedsMAC := true, NeedsPass := true }

/-- Go map lookup `Commands[cmdName]`: key-equality dispatch over the
catalog's 15 entries. -/
def CommandsLookup (n : String) : Option Command :=
  if n = "inquiry" then some inquiryCmd
  else if n = "inquiry_v32" then some inquiryV32Cmd
  else if n = "exchangecode" then some exchangecodeCmd
  else if n = "getencryptstring" then some getencryptstringCmd
  else if n = "getencryptstring_v31" then some getencryptstringV31Cmd
  else if n = "activate" then some activateCmd
  else if n = "update" then some updateCmd
  else if n = "reboot" then some rebootCmd
  else if n = "restore" then some restoreCmd
  else if n = "setmailbox" then some setmailboxCmd
  else if n = "ezvizunbind" then some ezvizunbindCmd
  else if n = "getbindlist" then some getbindlistCmd
  else if n = "getqrcodes" then some getqrcodesCmd
  else if n = "resetpassword" then some resetpasswordCmd
  else if n = "securitycode" then some securitycodeCmd
  else none

/-- `SendOptions` (command builder lines 132-144). `Timeout` is a Go
`time.Duration` in nanoseconds. -/
structure SendOptions where
  TargetIP   : String := ""
  TargetMAC  : String := ""
  Password   : String := ""
  Code       : String := ""
  NewIP      : String := ""
  NewMask    : String := ""
  NewGateway : String := ""
  NewPort    : Int := 0
  DHCP       : Bool := false
  Email      : String := ""
  Timeout    : Nat := 0
  deriving Repr, DecidableEq

/-- `BuildCommandXML` (command builder lines 147-212), with the freshly
generated `probeUUID` as an explicit argument. The Go `switch cmdName` is the
key-equality chain; option defaulting in the `update` case mirrors the
in-place mutation of the local `opts` copy. -/
def BuildCommandXML (probeUUID cmdName : String) (opts : SendOptions) :
    Except String String :=
  match CommandsLookup cmdName with
  | none => .error ("unknown command: " ++ cmdName)
  | some cmd =>
    if cmdName = "inquiry" ∨ cmdName = "inquiry_v32" then
      .ok (sprintf cmd.Template [.s probeUUID])
    else if cmdName = "exchangecode" ∨ cmdName = "getencryptstring" ∨
        cmdName = "getencryptstring_v31" ∨ cmdName = "getbindlist" ∨
        cmdName = "getqrcodes" then
      if opts.TargetMAC = "" then
        .error ("MAC address required for " ++ cmdName ++ " command")
      else
        .ok (sprintf cmd.Template [.s probeUUID, .s opts.TargetMAC])
    else if cmdName = "activate" ∨ cmdName = "reboot" ∨ cmdName = "restore" ∨
        cmdName = "ezvizunbind" then
      if opts.TargetMAC = "" then
        .error ("MAC address required for " ++ cmdName ++ " command")
      else if opts.Password = "" then
        .error ("password required for " ++ cmdName ++ " command")
      else
        .ok (sprintf cmd.Template [.s probeUUID, .s opts.TargetMAC, .s opts.Password])
    else if cmdName = "resetpassword" ∨ cmdName = "securitycode" then
      if opts.TargetMAC = "" then
        .error ("MAC address required for " ++ cmdName ++ " command")
      else if opts.Code = "" then
        .error ("security code required for " ++ cmdName ++ " command")
      else if opts.Password = "" then
        .error ("new password required for " ++ cmdName ++ " command")
      else
        .ok (sprintf cmd.Template
          [.s probeUUID, .s opts.TargetMAC, .s opts.Code, .s opts.Password])
    else if cmdName = "setmailbox" then
      if opts.TargetMAC = "" ∨ opts.Password = "" ∨ opts.Email = "" then
        .error "MAC, password, and email required for setmailbox command"
      else
        .ok (sprintf cmd.Template
          [.s probeUUID, .s opts.TargetMAC, .s opts.Email, .s opts.Password])
    else if cmdName = "update" then
      if opts.TargetMAC = "" ∨ opts.Password = "" then
        .error "MAC and password required for update command"
      else
        let dhcpStr : String := if opts.DHCP then "true" else "false"
        let newIP := if opts.NewIP = "" then opts.TargetIP else opts.NewIP
        let newMask := if opts.NewMask = "" then "255.255.255.0" else opts.NewMask
        let newPort := if opts.NewPort = 0 then 8000 else opts.NewPort
        .ok (sprintf cmd.Template
          [.s probeUUID, .s opts.TargetMAC, .s opts.Password, .s newIP, .d newPort,
           .s newMask, .s opts.NewGateway, .s dhcpStr])
    else .error ("command " ++ cmdName ++ " not implemented")

/-- The common head of every catalog template, up to the `%s` that receives the
freshly generated correlation UUID. -/
def xmlUuidLead : String := "<?xml version=\"1.0\" encoding=\"utf-8\"?><Probe><Uuid>"

/-! ## `SendCommand` routing (command builder lines 215-261)

The effectful body is split into its pure decision skeleton: which path a call
takes (everything up to the first socket operation), with the effective
timeout resolved, plus the classification of the single blocking read's
outcome on the unicast path. Timeouts are Go `time.Duration` nanoseconds. -/

/-- `5 * time.Second` in nanoseconds. -/
def fiveSecondsNs : Nat := 5000000000

/-- Where one `SendCommand` call is routed before any socket I/O. -/
inductive SendDisposition
  | failedBuild (err : String)
  | noRoute (err : String)
  | broadcastWithMAC (xmlCmd : String) (timeoutNs : Nat)
  | unicast (xmlCmd : String) (targetIP : String) (timeoutNs : Nat)
  deriving Repr, DecidableEq

/-- The decision prefix of `SendCommand` (lines 215-244): build the XML, then
route to the broadcast-with-MAC-filter path when the target IP is the "any"
address (`"0.0.0.0"` or empty) and a MAC was supplied, error out when it was
not, and otherwise take the unicast path with the timeout defaulted to 5
seconds when unset (the broadcast path applies the same default, lines
274-277). -/
def sendCommandRoute (probeUUID cmdName : String) (opts : SendOptions) :
    SendDisposition :=
  match BuildCommandXML probeUUID cmdName opts with
  | .error e => .failedBuild e
  | .ok xmlCmd =>
    if opts.TargetIP = "0.0.0.0" ∨ opts.TargetIP = "" then
      if opts.TargetMAC = "" then
        .noRoute "MAC address required when target IP is 0.0.0.0"
      else
        .broadcastWithMAC xmlCmd (if opts.Timeout = 0 then fiveSecondsNs else opts.Timeout)
    else
      .unicast xmlCmd opts.TargetIP (if opts.Timeout = 0 then fiveSecondsNs else opts.Timeout)

/-- Outcome of the unicast path's single blocking read. -/
inductive NetOutcome
  | reply (data : String)
  | timeout
  | ioError (msg : String)
  deriving Repr, DecidableEq

/-- Error classification of the unicast read (lines 251-260): a
deadline-exceeded read (`netErr.Timeout()`) is reported as the timeout
condition, any other failure as a wrapped generic read error. -/
def classifyUnicastRead : NetOutcome → Except String String
  | .reply data => .ok data
  | .timeout => .error "no response (timeout)"
  | .ioError msg => .error ("failed to read response: " ++ msg)

/-! ## `parseResponse` (scanner.go lines 194-208)

`xml.Unmarshal` is abstracted as a `decode` function returning `none` on a
structurally invalid document; the textual pre-check and the MAC
normalization are modelled exactly. -/

/-- Does `pat` occur at the head of the second list? -/
def leadMatch : List Char → List Char → Bool
  | [], _ => true
  | _ :: _, [] => false
  | p :: ps, c :: cs => p = c && leadMatch ps cs

/-- Does the second list contain `pat` as a contiguous run? -/
def hasSub (pat : List Char) : List Char → Bool
  | [] => pat.isEmpty
  | c :: rest => leadMatch pat (c :: rest) || hasSub pat rest

/-- `strings.Contains(s, pat)`. -/
def containsSub (s pat : String) : Bool := hasSub pat.data s.data

/-- MAC normalization (scanner.go line 206):
`strings.ToUpper(strings.ReplaceAll(mac, "-", ":"))` on ASCII data. -/
def normalizeMAC (mac : String) : String :=
  String.mk ((mac.data.map (fun c => if c = '-' then ':' else c)).map goUpperChar)

/-- `parseResponse` (scanner.go lines 194-208) with the XML decoder abstract. -/
def parseResponse (decode : String → Option Device) (data : String) : Option Device :=
  if !containsSub data "<ProbeMatch" && !containsSub data "ProbeMatch>" then none
  else
    match decode data with
    | none => none
    | some d => some { d with MAC := normalizeMAC d.MAC }

/-! ## `ToXML` (scanner.go lines 210-227) and its round trip

`ToXML` wraps the devices in `DeviceList{Version: "2.0", ...}`, marshals with
`xml.MarshalIndent(list, "", "  ")` and prepends `xml.Header`. Per the
`encoding/xml` Marshal name-precedence rules, each child element is named by
the tag on the `Device` struct's `XMLName` field — `ProbeMatch` — which takes
precedence over the enclosing `Devices []Device \`xml:"Device"\`` field tag.
Chardata and attribute values are escaped exactly as Go's `xml.EscapeText`
escapes them (`& < > " '` and tab/newline/carriage-return as character
references); integer fields are written in decimal. The parser below reads the
`Device` schema back, fields in schema order, unescaping chardata; fields
tagged `xml:"-"` (`AdapterIP`, `ReceivedTime`) are never serialized and parse
back to their zero values. -/

/-- Go `xml.EscapeText` on one character (valid scalar values): the escape
sequences are `&#34;` `&#39;` `&amp;` `&lt;` `&gt;` `&#x9;` `&#xA;` `&#xD;`,
written out as character lists. -/
def xmlEscapeChar (c : Char) : List Char :=
  if c = Char.ofNat 34 then ['&', '#', '3', '4', ';']
  else if c = Char.ofNat 39 then ['&', '#', '3', '9', ';']
  else if c = '&' then ['&', 'a', 'm', 'p', ';']
  else if c = '<' then ['&', 'l', 't', ';']
  else if c = '>' then ['&', 'g', 't', ';']
  else if c = Char.ofNat 9 then ['&', '#', 'x', '9', ';']
  else if c = Char.ofNat 10 then ['&', '#', 'x', 'A', ';']
  else if c = Char.ofNat 13 then ['&', '#', 'x', 'D', ';']
  else [c]

/-- Go `xml.EscapeText` over a character sequence. -/
def xmlEscape : List Char → List Char
  | [] => []
  | c :: rest => xmlEscapeChar c ++ xmlEscape rest

/-- Decode one entity reference (after a leading `&`) among those
`xml.EscapeText` emits: the decoded character and the remaining input. -/
def entityStep (l : List Char) : Option (Char × List Char) :=
  if leadMatch ['a', 'm', 'p', ';'] l then some ('&', l.drop 4)
  else if leadMatch ['l', 't', ';'] l then some ('<', l.drop 3)
  else if leadMatch ['g', 't', ';'] l then some ('>', l.drop 3)
  else if leadMatch ['#', '3', '4', ';'] l then some (Char.ofNat 34, l.drop 4)
  else if leadMatch ['#', '3', '9', ';'] l then some (Char.ofNat 39, l.drop 4)
  else if leadMatch ['#', 'x', '9', ';'] l then some (Char.ofNat 9, l.drop 4)
  else if leadMatch ['#', 'x', 'A', ';'] l then some (Char.ofNat 10, l.drop 4)
  else if leadMatch ['#', 'x', 'D', ';'] l then some (Char.ofNat 13, l.drop 4)
  else none

/-- Entity decoding of the references `xml.EscapeText` emits (anything else
after `&` is rejected); `fuel` bounds the recursion (structural, so the kernel
can evaluate it). -/
def xmlUnescapeAux : Nat → List Char → Option (List Char)
  | 0, _ => none
  | _ + 1, [] => some []
  | fuel + 1, c :: rest =>
    if c = '&' then
      match entityStep rest with
      | some (ch, r) => (xmlUnescapeAux fuel r).map (fun l2 => ch :: l2)
      | none => none
    else (xmlUnescapeAux fuel rest).map (fun l2 => c :: l2)

/-- Decode the escaped text back (any input's decode needs at most
`length + 1` steps since every step consumes at least one character). -/
def xmlUnescape (l : List Char) : Option (List Char) := xmlUnescapeAux (l.length + 1) l

/-- Decimal digit value of a character. -/
def digitVal? (c : Char) : Option Nat :=
  if c = '0' then some 0 else if c = '1' then some 1 else if c = '2' then some 2
  else if c = '3' then some 3 else if c = '4' then some 4 else if c = '5' then some 5
  else if c = '6' then some 6 else if c = '7' then some 7 else if c = '8' then some 8
  else if c = '9' then some 9 else none

/-- Accumulating decimal value of a digit string (`none` on a non-digit). -/
def digitsValAux : Nat → List Char → Option Nat
  | acc, [] => some acc
  | acc, c :: rest =>
    match digitVal? c with
    | some d => digitsValAux (acc * 10 + d) rest
    | none => none

/-- Decimal value of a non-empty digit string. -/
def digitsVal (l : List Char) : Option Nat :=
  if l.isEmpty then none else digitsValAux 0 l

/-- Parse a (possibly negative) decimal integer, as `strconv`/`xml.Unmarshal`
read an `int` field. -/
def intParse (l : List Char) : Option Int :=
  if leadMatch ['-'] l then (digitsVal (l.drop 1)).map (fun v => -(v : Int))
  else (digitsVal l).map (fun v => (v : Int))

/-! ### Serializer building blocks (the layout `xml.MarshalIndent(list, "", "  ")`
produces) and a parser of the resulting Device-schema documents. -/

/-- `<name>`. -/
def openTag (nm : List Char) : List Char := '<' :: (nm ++ ['>'])

/-- `</name>`. -/
def closeTag (nm : List Char) : List Char := '<' :: ('/' :: (nm ++ ['>']))

/-- One serialized string field: `<name>escaped-value</name>`. -/
def strFieldXML (nm : List Char) (v : String) : List Char :=
  openTag nm ++ (xmlEscape v.data ++ closeTag nm)

/-- One serialized int field: `<name>decimal</name>`. -/
def intFieldXML (nm : List Char) (x : Int) : List Char :=
  openTag nm ++ (intRepr x ++ closeTag nm)

/-- Newline plus one indent level (`MarshalIndent` with indent `"  "`). -/
def indent1 : List Char := ['\n', ' ', ' ']

/-- Newline plus two indent levels. -/
def indent2 : List Char := ['\n', ' ', ' ', ' ', ' ']

/-- XML whitespace. -/
def isXmlWs (c : Char) : Bool :=
  c = ' ' || c = Char.ofNat 9 || c = Char.ofNat 10 || c = Char.ofNat 13

/-- Skip whitespace between tags. -/
def skipWs (l : List Char) : List Char := l.dropWhile isXmlWs

/-- Require the exact token `tok` and return the rest of the input. -/
def expectTok (tok l : List Char) : Option (List Char) :=
  if leadMatch tok l then some (l.drop tok.length) else none

/-- Parse `<name>chardata</name>` (whitespace before the opening tag allowed),
unescaping the chardata. -/
def parseStrField (nm l : List Char) : Option (String × List Char) := do
  let r1 ← expectTok (openTag nm) (skipWs l)
  let content := r1.takeWhile (fun c => !(c = '<'))
  let r2 := r1.dropWhile (fun c => !(c = '<'))
  let v ← xmlUnescape content
  let r3 ← expectTok (closeTag nm) r2
  some (String.mk v, r3)

/-- Parse `<name>decimal</name>` (whitespace before the opening tag allowed). -/
def parseIntField (nm l : List Char) : Option (Int × List Char) := do
  let r1 ← expectTok (openTag nm) (skipWs l)
  let content := r1.takeWhile (fun c => !(c = '<'))
  let r2 := r1.dropWhile (fun c => !(c = '<'))
  let v ← intParse content
  let r3 ← expectTok (closeTag nm) r2
  some (v, r3)

/-- The non-serialized local-discovery metadata (`xml:"-"` fields `AdapterIP`
and `ReceivedTime`) reset to their zero values: exactly what survives an
XML round trip. -/
def stripLocal (d : Device) : Device := { d with AdapterIP := "", ReceivedTime := 0 }

/-- One serialized `Device` value, as `MarshalIndent` lays it out inside the
envelope: a `ProbeMatch` element (the `XMLName` field tag's name) holding the
29 XML-mapped fields in schema order, indented two levels. -/
def deviceXML (d : Device) : List Char :=
  indent1 ++ (openTag "ProbeMatch".data ++
  (indent2 ++ (strFieldXML "Uuid".data d.Uuid ++
  (indent2 ++ (strFieldXML "Types".data d.Types ++
  (indent2 ++ (strFieldXML "DeviceType".data d.DeviceType ++
  (indent2 ++ (strFieldXML "DeviceDescription".data d.DeviceDescription ++
  (indent2 ++ (strFieldXML "DeviceSN".data d.DeviceSN ++
  (indent2 ++ (strFieldXML "MAC".data d.MAC ++
  (indent2 ++ (strFieldXML "IPv4Address".data d.IPv4Address ++
  (indent2 ++ (strFieldXML "IPv4SubnetMask".data d.IPv4SubnetMask ++
  (indent2 ++ (strFieldXML "IPv4Gateway".data d.IPv4Gateway ++
  (indent2 ++ (strFieldXML "IPv6Address".data d.IPv6Address ++
  (indent2 ++ (strFieldXML "IPv6Gateway".data d.IPv6Gateway ++
  (indent2 ++ (intFieldXML "IPv6MaskLen".data d.IPv6MaskLen ++
  (indent2 ++ (strFieldXML "DHCP".data d.DHCP ++
  (indent2 ++ (intFieldXML "CommandPort".data d.CommandPort ++
  (indent2 ++ (intFieldXML "HttpPort".data d.HttpPort ++
  (indent2 ++ (strFieldXML "DSPVersion".data d.DSPVersion ++
  (indent2 ++ (strFieldXML "BootTime".data d.BootTime ++
  (indent2 ++ (strFieldXML "SoftwareVersion".data d.SoftwareVersion ++
  (indent2 ++ (strFieldXML "Activated".data d.Activated ++
  (indent2 ++ (strFieldXML "PasswordResetModeSecond".data d.PasswordResetMode ++
  (indent2 ++ (strFieldXML "SupportHCPlatform".data d.SupportHCPlatform ++
  (indent2 ++ (strFieldXML "HCPlatformEnable".data d.HCPlatformEnable ++
  (indent2 ++ (strFieldXML "Support".data d.SupportReset ++
  (indent2 ++ (strFieldXML "Encoder".data d.Encoder ++
  (indent2 ++ (strFieldXML "OEMInfo".data d.OEMInfo ++
  (indent2 ++ (intFieldXML "AnalogChannelNum".data d.AnalogChannelNum ++
  (indent2 ++ (intFieldXML "DigitalChannelNum".data d.DigitalChannelNum ++
  (indent2 ++ (intFieldXML "SDKOverTLSPort".data d.SDKOverTLSPort ++
  (indent2 ++ (strFieldXML "SDKServerStatus".data d.SDKServerStatus ++
  (indent1 ++ closeTag "ProbeMatch".data))))))))))))))))))))))))))))))))))))))))))))))))))))))))))))

/-- The serialized device sequence. -/
def devicesXML : List Device → List Char
  | [] => []
  | d :: rest => deviceXML d ++ devicesXML rest

/-- Parse one string field and store it into the device under construction. -/
def stepS (nm : List Char) (set : Device → String → Device) :
    Option (Device × List Char) → Option (Device × List Char)
  | none => none
  | some (d, l) =>
    match parseStrField nm l with
    | none => none
    | some (v, r) => some (set d v, r)

/-- Parse one int field and store it into the device under construction. -/
def stepI (nm : List Char) (set : Device → Int → Device) :
    Option (Device × List Char) → Option (Device × List Char)
  | none => none
  | some (d, l) =>
    match parseIntField nm l with
    | none => none
    | some (v, r) => some (set d v, r)

/-- Parse one serialized `Device` element back, fields in schema order; the
non-serialized `AdapterIP`/`ReceivedTime` stay at their zero values. -/
def parseDevice (l : List Char) : Option (Device × List Char) :=
  match expectTok (openTag "ProbeMatch".data) (skipWs l) with
  | none => none
  | some r0 =>
    let st := stepS "Uuid".data (fun d v => { d with Uuid := v }) (some ({}, r0))
    let st := stepS "Types".data (fun d v => { d with Types := v }) st
    let st := stepS "DeviceType".data (fun d v => { d with DeviceType := v }) st
    let st := stepS "DeviceDescription".data (fun d v => { d with DeviceDescription := v }) st
    let st := stepS "DeviceSN".data (fun d v => { d with DeviceSN := v }) st
    let st := stepS "MAC".data (fun d v => { d with MAC := v }) st
    let st := stepS "IPv4Address".data (fun d v => { d with IPv4Address := v }) st
    let st := stepS "IPv4SubnetMask".data (fun d v => { d with IPv4SubnetMask := v }) st
    let st := stepS "IPv4Gateway".data (fun d v => { d with IPv4Gateway := v }) st
    let st := stepS "IPv6Address".data (fun d v => { d with IPv6Address := v }) st
    let st := stepS "IPv6Gateway".data (fun d v => { d with IPv6Gateway := v }) st
    let st := stepI "IPv6MaskLen".data (fun d v => { d with IPv6MaskLen := v }) st
    let st := stepS "DHCP".data (fun d v => { d with DHCP := v }) st
    let st := stepI "CommandPort".data (fun d v => { d with CommandPort := v }) st
    let st := stepI "HttpPort".data (fun d v => { d with HttpPort := v }) st
    let st := stepS "DSPVersion".data (fun d v => { d with DSPVersion := v }) st
    let st := stepS "BootTime".data (fun d v => { d with BootTime := v }) st
    let st := stepS "SoftwareVersion".data (fun d v => { d with SoftwareVersion := v }) st
    let st := stepS "Activated".data (fun d v => { d with Activated := v }) st
    let st := stepS "PasswordResetModeSecond".data
      (fun d v => { d with PasswordResetMode := v }) st
    let st := stepS "SupportHCPlatform".data (fun d v => { d with SupportHCPlatform := v }) st
    let st := stepS "HCPlatformEnable".data (fun d v => { d with HCPlatformEnable := v }) st
    let st := stepS "Support".data (fun d v => { d with SupportReset := v }) st
    let st := stepS "Encoder".data (fun d v => { d with Encoder := v }) st
    let st := stepS "OEMInfo".data (fun d v => { d with OEMInfo := v }) st
    let st := stepI "AnalogChannelNum".data (fun d v => { d with AnalogChannelNum := v }) st
    let st := stepI "DigitalChannelNum".data (fun d v => { d with DigitalChannelNum := v }) st
    let st := stepI "SDKOverTLSPort".data (fun d v => { d with SDKOverTLSPort := v }) st
    let st := stepS "SDKServerStatus".data (fun d v => { d with SDKServerStatus := v }) st
    match st with
    | none => none
    | some (d, r1) =>
      match expectTok (closeTag "ProbeMatch".data) (skipWs r1) with
      | none => none
      | some r2 => some (d, r2)

/-- Go's `xml.Header` constant. -/
def xmlHeaderStr : String := "<?xml version=\"1.0\" encoding=\"UTF-8\"?>\n"

/-- Envelope name from `DeviceList`'s `XMLName` tag. -/
def sadpName : List Char := "SADPDeviceList".data

/-- The envelope's opening through the version attribute's opening quote. -/
def sadpOpenTok : List Char := "<SADPDeviceList version=\"".data

/-- Closing quote of the version attribute plus the tag close. -/
def attrClose : List Char := [Char.ofNat 34, '>']

/-- `ToXML` (scanner.go lines 211-227): the `MarshalIndent` document for
`DeviceList{Version: "2.0", Devices: devs}` with `xml.Header` prepended.
With no devices the envelope is a single line; with devices each `ProbeMatch`
child sits on its own indented lines and the closing tag returns to column
zero. -/
def ToXML (devs : List Device) : String :=
  xmlHeaderStr ++ String.mk
    (sadpOpenTok ++ ("2.0".data ++ (attrClose ++ (devicesXML devs ++
      ((if devs.isEmpty then [] else ['\n']) ++ closeTag sadpName)))))

/-- Parse the envelope opening and its `version` attribute value. -/
def parseVersionAttr (l : List Char) : Option (String × List Char) := do
  let r1 ← expectTok sadpOpenTok l
  let ver := r1.takeWhile (fun c => !(c = Char.ofNat 34))
  let r2 := r1.dropWhile (fun c => !(c = Char.ofNat 34))
  let r3 ← expectTok attrClose r2
  some (String.mk ver, r3)

/-- Parse the device elements until the envelope's closing tag; `fuel` bounds
the recursion (any document needs at most `length + 1` steps). -/
def parseDevices : Nat → List Char → Option (List Device × List Char)
  | 0, _ => none
  | fuel + 1, l =>
    if leadMatch (closeTag sadpName) (skipWs l) then some ([], l)
    else
      match parseDevice l with
      | none => none
      | some (d, r) =>
        match parseDevices fuel r with
        | none => none
        | some (ds, r2) => some (d :: ds, r2)

/-- Parse a whole `ToXML`-shaped document: header, envelope with version
attribute, device elements in schema order, closing tag, end of input. -/
def parseSADPXML (s : String) : Option (String × List Device) := do
  let r0 ← expectTok xmlHeaderStr.data s.data
  let (ver, r1) ← parseVersionAttr r0
  let (devs, r2) ← parseDevices (r1.length + 1) r1
  let r3 ← expectTok (closeTag sadpName) (skipWs r2)
  if r3.isEmpty then some (ver, devs) else none

/-- A discovered device whose local-discovery metadata is populated. -/
def cexDevice : Device :=
  { MAC := "AA:BB:CC:DD:EE:FF", IPv4Address := "192.168.1.64", Activated := "true",
    AdapterIP := "10.0.0.9", ReceivedTime := 5 }

theorem regFind_append (mac : String) (a b : List (String × Device)) :
    regFind mac (a ++ b) = match regFind mac a with
      | some v => some v
      | none => regFind mac b := by
  induction a with
  | nil => simp [regFind]
  | cons p rest ih =>
    by_cases h : p.1 = mac <;> simp [regFind, h, ih]

theorem regFind_foldl_of_some (mac : String) (v : Device) (reg : List (String × Device))
    (arrivals : List Device) (h : regFind mac reg = some v) :
    regFind mac (arrivals.foldl registryInsert reg) = some v := by
  induction arrivals generalizing reg with
  | nil => exact h
  | cons d rest ih =>
    simp only [List.foldl_cons]
    apply ih
    unfold registryInsert
    cases hd : regFind d.MAC reg with
    | some w => exact h
    | none => rw [regFind_append, h]

theorem regFind_foldl_of_none (mac : String) (reg : List (String × Device))
    (arrivals : List Device) (h : regFind mac reg = none) :
    regFind mac (arrivals.foldl registryInsert reg) =
      arrivals.find? (fun d => d.MAC = mac) := by
  induction arrivals generalizing reg with
  | nil => simpa [List.find?] using h
  | cons d rest ih =>
    simp only [List.foldl_cons]
    by_cases hmac : d.MAC = mac
    · subst hmac
      have hins : registryInsert reg d = reg ++ [(d.MAC, d)] := by
        unfold registryInsert; rw [h]
      rw [hins]
      have hfound : regFind d.MAC (reg ++ [(d.MAC, d)]) = some d := by
        rw [regFind_append, h]; simp [regFind]
      rw [regFind_foldl_of_some _ _ _ _ hfound, List.find?_cons_of_pos _ (by simp)]
    · have hkeep : regFind mac (registryInsert reg d) = none := by
        unfold registryInsert
        cases hd : regFind d.MAC reg with
        | some w => exact h
        | none => rw [regFind_append, h]; simp [regFind, hmac]
      rw [ih _ hkeep, List.find?_cons_of_neg _ (by simp [hmac])]

theorem regFind_ne_none_of_mem (mac : String) (p : String × Device)
    (reg : List (String × Device)) (hp : p ∈ reg) (hpa : p.1 = mac) :
    regFind mac reg ≠ none := by
  induction reg with
  | nil => simp at hp
  | cons q qs ihq =>
    simp only [List.mem_cons] at hp
    rcases hp with rfl | hp
    · simp [regFind, hpa]
    · by_cases hq : q.1 = mac
      · simp [regFind, hq]
      · simp only [regFind, hq, if_false]
        exact fun hn => ihq hp hn

theorem mem_keys_of_regFind_some (mac : String) (w : Device)
    (reg : List (String × Device)) (hd : regFind mac reg = some w) :
    mac ∈ reg.map (fun p => p.1) := by
  induction reg with
  | nil => simp [regFind] at hd
  | cons q qs ihq =>
    by_cases hq : q.1 = mac
    · simp [hq]
    · simp only [regFind, hq, if_false] at hd
      simp [ihq hd]

theorem registry_keys_nodup_aux (reg : List (String × Device)) (arrivals : List Device)
    (hreg : (reg.map (fun p => p.1)).Nodup) :
    ((arrivals.foldl registryInsert reg).map (fun p => p.1)).Nodup := by
  induction arrivals generalizing reg with
  | nil => exact hreg
  | cons d rest ih =>
    simp only [List.foldl_cons]
    apply ih
    unfold registryInsert
    cases hd : regFind d.MAC reg with
    | some w => exact hreg
    | none =>
      simp only [List.map_append, List.map_cons, List.map_nil]
      rw [List.nodup_append]
      refine ⟨hreg, List.nodup_singleton _, ?_⟩
      intro a ha hb
      simp only [List.mem_singleton] at hb
      subst hb
      simp only [List.mem_map] at ha
      obtain ⟨p, hp, hpa⟩ := ha
      exact regFind_ne_none_of_mem d.MAC p reg hp hpa hd

theorem registry_keys_toFinset_aux (reg : List (String × Device)) (arrivals : List Device) :
    ((arrivals.foldl registryInsert reg).map (fun p => p.1)).toFinset =
      (reg.map (fun p => p.1)).toFinset ∪ (arrivals.map (fun d => d.MAC)).toFinset := by
  induction arrivals generalizing reg with
  | nil => simp
  | cons d rest ih =>
    simp only [List.foldl_cons, ih]
    unfold registryInsert
    cases hd : regFind d.MAC reg with
    | some w =>
      have hmem : d.MAC ∈ reg.map (fun p => p.1) :=
        mem_keys_of_regFind_some d.MAC w reg hd
      ext a
      simp only [Finset.mem_union, List.mem_toFinset, List.map_cons, List.mem_cons]
      constructor
      · rintro (h | h)
        · exact Or.inl h
        · exact Or.inr (Or.inr h)
      · rintro (h | rfl | h)
        · exact Or.inl h
        · exact Or.inl hmem
        · exact Or.inr h
    | none =>
      ext a
      simp only [Finset.mem_union, List.mem_toFinset, List.map_append, List.map_cons,
        List.map_nil, List.mem_append, List.mem_cons, List.mem_singleton, List.not_mem_nil,
        or_false]
      tauto

/-- **C1**: Registry first-wins invariant. During one `Discover()` call, modelled
as the fold of the locked check-then-insert step (scanner.go lines 184-189) over
the arrival sequence of successfully parsed devices: (1) for every MAC, the
registry entry is exactly the first arrived device with that MAC (a later
arrival never overwrites an existing entry), and (2) the snapshot returned by
`Discover()` (scanner.go lines 128-131) has no duplicate MAC keys and contains
exactly one device per distinct observed MAC. -/
theorem C1_registry_first_wins (arrivals : List Device) :
    (∀ mac : String,
        regFind mac (discoverRegistry arrivals) = arrivals.find? (fun d => d.MAC = mac)) ∧
    ((discoverRegistry arrivals).map (fun p => p.1)).Nodup ∧
    (registrySnapshot (discoverRegistry arrivals)).length =
      (arrivals.map (fun d => d.MAC)).toFinset.card := by
  refine ⟨fun mac => ?_, ?_, ?_⟩
  · unfold discoverRegistry
    exact regFind_foldl_of_none mac [] arrivals rfl
  · exact registry_keys_nodup_aux [] arrivals (by simp)
  · have h1 := registry_keys_nodup_aux [] arrivals (by simp)
    have h2 := registry_keys_toFinset_aux [] arrivals
    unfold discoverRegistry
    have hlen : (registrySnapshot (arrivals.foldl registryInsert [])).length =
        ((arrivals.foldl registryInsert []).map (fun p => p.1)).length := by
      simp [registrySnapshot]
    rw [hlen, ← List.toFinset_card_of_nodup h1, h2]
    simp

/-- **C3 counterexample**: the claim states that for `maxLen <= 3` (and a longer
input) `Truncate` returns exactly `maxLen` periods, so `Truncate "abcd" 2`
would have to be `".."`; on the code, `s[:maxLen-3]` is `s[:-1]`, an
out-of-range slice (run-time panic), modelled as `none`. -/
theorem C3_counterexample :
    Truncate "abcd" 2 = none ∧ Truncate "abcd" 2 ≠ some ".." :=
  ⟨by decide, by decide⟩

/-- **C3 (amended)**: `Truncate(s, maxLen)` returns `s` unchanged when
`len(s) <= maxLen`; otherwise, when `maxLen >= 3`, it returns the first
`maxLen-3` characters of `s` followed by three periods (so `maxLen = 3` yields
exactly `"..."`); when `maxLen < 3` and `len(s) > maxLen` the slice index
`maxLen-3` is negative and the function has no value (Go run-time panic) —
it does not return `maxLen` periods. In particular
`Truncate("abcd", 3) = "..."` and `Truncate("abc", 3) = "abc"`. -/
theorem C3_truncate_amended :
    (∀ (s : String) (maxLen : Int),
      Truncate s maxLen =
        if (s.length : Int) ≤ maxLen then some s
        else if 3 ≤ maxLen then some (String.mk (s.data.take (maxLen - 3).toNat) ++ "...")
        else none) ∧
    Truncate "abcd" 3 = some "..." ∧ Truncate "abc" 3 = some "abc" ∧
    Truncate "exactly10!" 10 = some "exactly10!" := by
  refine ⟨fun s maxLen => ?_, by decide, by decide, by decide⟩
  unfold Truncate goSliceTo
  by_cases h1 : (s.length : Int) ≤ maxLen
  · simp [h1]
  · by_cases h2 : 3 ≤ maxLen
    · have hcond : 0 ≤ maxLen - 3 ∧ maxLen - 3 ≤ (s.length : Int) := ⟨by omega, by omega⟩
      simp [h1, h2, hcond]
    · have hcond : ¬(0 ≤ maxLen - 3 ∧ maxLen - 3 ≤ (s.length : Int)) := by omega
      simp [h1, h2, hcond]

/-- **C2 counterexample**: on the valid CIDR `192.168.1.4/30` (2 host bits,
so the ≤ 8 branch applies) the code skips nothing — the addresses
192.168.1.4 … 192.168.1.7 all have last octet ∉ {0, 255} — returning 4
addresses, not 2; in particular the prefix's first (network, .4) and last
(broadcast, .7) addresses are both returned. -/
theorem C2_counterexample :
    (expandCIDR 3232235780 30).length = 4 ∧
    (expandCIDR 3232235780 30).length ≠ 2 ∧
    3232235780 ∈ expandCIDR 3232235780 30 ∧
    3232235783 ∈ expandCIDR 3232235780 30 := by
  refine ⟨by decide, by decide, by decide, by decide⟩

theorem expandCIDR_mem_iff (ip p a : Nat) :
    a ∈ expandCIDR ip p ↔
      (ip / 2 ^ (32 - p) * 2 ^ (32 - p) ≤ a ∧
       a < ip / 2 ^ (32 - p) * 2 ^ (32 - p) + 2 ^ (32 - p) ∧
       (32 - p ≤ 8 → a % 256 ≠ 0 ∧ a % 256 ≠ 255)) := by
  unfold expandCIDR keepAddr
  simp only [List.mem_filter, List.mem_map, List.mem_range]
  constructor
  · rintro ⟨⟨i, hi, rfl⟩, hkeep⟩
    refine ⟨by omega, by omega, fun hle => ?_⟩
    by_contra hcon
    rw [not_and_or, not_ne_iff, not_ne_iff] at hcon
    have : ¬(if 32 - p ≤ 8 ∧ ((ip / 2 ^ (32 - p) * 2 ^ (32 - p) + i) % 256 = 0 ∨
        (ip / 2 ^ (32 - p) * 2 ^ (32 - p) + i) % 256 = 255) then false else true) = true := by
      rcases hcon with h | h <;> simp [hle, h]
    exact this hkeep
  · rintro ⟨h1, h2, h3⟩
    refine ⟨⟨a - ip / 2 ^ (32 - p) * 2 ^ (32 - p), by omega, by omega⟩, ?_⟩
    by_cases hle : 32 - p ≤ 8
    · obtain ⟨hz, ho⟩ := h3 hle
      simp [hle, hz, ho]
    · simp [hle]

/-- **C2 (amended)**: `ExpandCIDR` enumerates the prefix in ascending order and,
when the host-bit count `32 - p` is at most 8, skips exactly the addresses
whose last octet is 0 or 255 — not the prefix's first and last address. For an
IPv4 `/24` these coincide (254 results), but e.g. a `/30` not containing a
0- or 255-octet address yields 4 results. Precisely: (1) for host-bit count
> 8 nothing is skipped (the full `2^(32-p)` block is returned); (2) an address
is returned iff it lies in the prefix block and, when `32 - p ≤ 8`, its last
octet is neither 0 nor 255; and (3) every `/24` yields exactly 254 results. -/
theorem C2_expand_amended :
    (∀ ip p, 1 ≤ p → 8 < 32 - p →
        expandCIDR ip p =
          (List.range (2 ^ (32 - p))).map (fun i => ip / 2 ^ (32 - p) * 2 ^ (32 - p) + i)) ∧
    (∀ ip p a, a ∈ expandCIDR ip p ↔
        (ip / 2 ^ (32 - p) * 2 ^ (32 - p) ≤ a ∧
         a < ip / 2 ^ (32 - p) * 2 ^ (32 - p) + 2 ^ (32 - p) ∧
         (32 - p ≤ 8 → a % 256 ≠ 0 ∧ a % 256 ≠ 255))) ∧
    (∀ ip, (expandCIDR ip 24).length = 254) := by
  refine ⟨fun ip p _ hp => ?_, fun ip p a => expandCIDR_mem_iff ip p a, fun ip => ?_⟩
  · unfold expandCIDR
    apply List.filter_eq_self.mpr
    intro a _
    have hn : ¬(32 - p ≤ 8 ∧ (a % 256 = 0 ∨ a % 256 = 255)) := fun hc => absurd hc.1 (by omega)
    simp only [keepAddr, if_neg hn]
  · unfold expandCIDR
    have hmod : ∀ i, i < 2 ^ (32 - 24) → (ip / 2 ^ (32 - 24) * 2 ^ (32 - 24) + i) % 256 = i := by
      intro i hi
      have h256 : (2 : Nat) ^ (32 - 24) = 256 := by norm_num
      rw [h256] at hi ⊢
      omega
    rw [List.filter_map, List.length_map]
    have hcongr : (List.range (2 ^ (32 - 24))).filter
          ((keepAddr (32 - 24)) ∘ (fun i => ip / 2 ^ (32 - 24) * 2 ^ (32 - 24) + i)) =
        (List.range (2 ^ (32 - 24))).filter (fun i => keepAddr (32 - 24) i) := by
      apply List.filter_congr
      intro i hi
      simp only [List.mem_range] at hi
      simp only [Function.comp]
      unfold keepAddr
      rw [hmod i hi]
      have hi' : i % 256 = i := Nat.mod_eq_of_lt (by simpa using hi)
      rw [hi']
    rw [hcongr]
    decide

/-- **C2 witness**: the amended theorem applied at concrete inputs: the no-skip
clause at `10.0.0.0/16` (16 host bits) and the counting clause at
`192.168.1.0/24`. -/
theorem C2_expand_amended_witness :
    expandCIDR 167772160 16 =
      (List.range (2 ^ (32 - 16))).map (fun i => 167772160 / 2 ^ (32 - 16) * 2 ^ (32 - 16) + i) ∧
    (expandCIDR 3232235776 24).length = 254 :=
  ⟨C2_expand_amended.1 167772160 16 (by decide) (by decide),
   C2_expand_amended.2.2 3232235776⟩

/-- **C9**: `IsHikvisionMAC` does not require a complete MAC address. With
`parts` the colon-groups of the lowercased, dash-normalized input: when there
are at least 3 groups the result is `true` exactly when the first three groups
joined by colons equal one of the hardcoded OUI prefixes; fewer than 3 groups
always yields `false`; and a bare three-group prefix such as `"00:0d:c5"` (or
`"00-0D-C5"`) already returns `true`, while a two-group input returns
`false`. -/
theorem C9_hikvision_mac_prefix_only :
    (∀ mac : String,
      3 ≤ (splitColon (dashToColon (goToLower mac)).data).length →
      (IsHikvisionMAC mac = true ↔
        String.mk (List.intercalate [':']
          ((splitColon (dashToColon (goToLower mac)).data).take 3)) ∈ HikvisionOUIs)) ∧
    (∀ mac : String,
      (splitColon (dashToColon (goToLower mac)).data).length < 3 →
      IsHikvisionMAC mac = false) ∧
    IsHikvisionMAC "00:0d:c5" = true ∧
    IsHikvisionMAC "00-0D-C5" = true ∧
    IsHikvisionMAC "00:0d:c5:11:22:33" = true ∧
    IsHikvisionMAC "aa:bb:cc:dd:ee:ff" = false ∧
    IsHikvisionMAC "00:0d" = false := by
  refine ⟨fun mac h3 => ?_, fun mac hlt => ?_, by decide, by decide, by decide,
    by decide, by decide⟩
  · unfold IsHikvisionMAC
    rw [if_neg (by omega)]
    simp [List.contains, List.elem_iff]
  · unfold IsHikvisionMAC
    rw [if_pos hlt]

/-- **C9 witness**: the general group-count clauses applied at concrete
inputs discharging their hypotheses. -/
theorem C9_hikvision_mac_prefix_only_witness :
    (IsHikvisionMAC "00:0d:c5" = true ↔
      String.mk (List.intercalate [':']
        ((splitColon (dashToColon (goToLower "00:0d:c5")).data).take 3)) ∈ HikvisionOUIs) ∧
    IsHikvisionMAC "abcdef" = false :=
  ⟨C9_hikvision_mac_prefix_only.1 "00:0d:c5" (by decide),
   C9_hikvision_mac_prefix_only.2.1 "abcdef" (by decide)⟩

/-- **C4**: `BuildCommandXML` fails with an "unknown command" error for any name
outside the catalog, irrespective of the options (hence before any field
validation); for a known command, required fields are validated before any XML
is produced, with errors naming the missing field and the command: `activate`
with no MAC fails for the missing MAC, `activate` with MAC but no password
fails for the missing password, and `activate` with both succeeds with both
values appearing verbatim in the output; moreover for every catalog command,
success implies every field flagged as required (`NeedsMAC`/`NeedsPass`) was
supplied. -/
theorem C4_build_command_validation :
    (∀ (u name : String) (opts : SendOptions),
      CommandsLookup name = none →
      BuildCommandXML u name opts = .error ("unknown command: " ++ name)) ∧
    (∀ (u : String) (opts : SendOptions),
      opts.TargetMAC = "" →
      BuildCommandXML u "activate" opts =
        .error "MAC address required for activate command") ∧
    (∀ (u : String) (opts : SendOptions),
      opts.TargetMAC ≠ "" → opts.Password = "" →
      BuildCommandXML u "activate" opts =
        .error "password required for activate command") ∧
    (∀ (u : String) (opts : SendOptions),
      opts.TargetMAC ≠ "" → opts.Password ≠ "" →
      BuildCommandXML u "activate" opts =
        .ok ("<?xml version=\"1.0\" encoding=\"utf-8\"?><Probe><Uuid>" ++ u ++
          "</Uuid><MAC>" ++ opts.TargetMAC ++ "</MAC><Types>activate</Types><Password>" ++
          opts.Password ++ "</Password></Probe>")) ∧
    (∀ (u name : String) (cmd : Command) (opts : SendOptions) (out : String),
      CommandsLookup name = some cmd →
      BuildCommandXML u name opts = .ok out →
      (cmd.NeedsMAC = true → opts.TargetMAC ≠ "") ∧
      (cmd.NeedsPass = true → opts.Password ≠ "")) := by
  refine ⟨?_, ?_, ?_, ?_, ?_⟩
  · intro u name opts h
    unfold BuildCommandXML
    rw [h]
  · intro u opts hm
    simp [BuildCommandXML, CommandsLookup, hm]
  · intro u opts hm hp
    simp [BuildCommandXML, CommandsLookup, hm, hp]
  · intro u opts hm hp
    simp [BuildCommandXML, CommandsLookup, hm, hp, activateCmd, sprintf, goSprintfAux,
      String.ext_iff]
  · intro u name cmd opts out hlook hok
    by_cases h1 : name = "inquiry"
    · subst h1
      injection hlook with hcmd
      subst hcmd
      exact ⟨fun hf => by simp [inquiryCmd] at hf, fun hf => by simp [inquiryCmd] at hf⟩
    by_cases h2 : name = "inquiry_v32"
    · subst h2
      simp only [CommandsLookup] at hlook
      simp at hlook
      subst hlook
      exact ⟨fun hf => by simp [inquiryV32Cmd] at hf,
             fun hf => by simp [inquiryV32Cmd] at hf⟩
    by_cases h3 : name = "exchangecode"
    · subst h3
      simp only [CommandsLookup] at hlook
      simp at hlook
      subst hlook
      simp [BuildCommandXML, CommandsLookup] at hok
      by_cases hm : opts.TargetMAC = ""
      · simp [hm] at hok
      · exact ⟨fun _ => hm, fun hf => by simp [exchangecodeCmd] at hf⟩
    by_cases h4 : name = "getencryptstring"
    · subst h4
      simp only [CommandsLookup] at hlook
      simp at hlook
      subst hlook
      simp [BuildCommandXML, CommandsLookup] at hok
      by_cases hm : opts.TargetMAC = ""
      · simp [hm] at hok
      · exact ⟨fun _ => hm, fun hf => by simp [getencryptstringCmd] at hf⟩
    by_cases h5 : name = "getencryptstring_v31"
    · subst h5
      simp only [CommandsLookup] at hlook
      simp at hlook
      subst hlook
      simp [BuildCommandXML, CommandsLookup] at hok
      by_cases hm : opts.TargetMAC = ""
      · simp [hm] at hok
      · exact ⟨fun _ => hm, fun hf => by simp [getencryptstringV31Cmd] at hf⟩
    by_cases h6 : name = "getbindlist"
    · subst h6
      simp only [CommandsLookup] at hlook
      simp at hlook
      subst hlook
      simp [BuildCommandXML, CommandsLookup] at hok
      by_cases hm : opts.TargetMAC = ""
      · simp [hm] at hok
      · exact ⟨fun _ => hm, fun hf => by simp [getbindlistCmd] at hf⟩
    by_cases h7 : name = "getqrcodes"
    · subst h7
      simp only [CommandsLookup] at hlook
      simp at hlook
      subst hlook
      simp [BuildCommandXML, CommandsLookup] at hok
      by_cases hm : opts.TargetMAC = ""
      · simp [hm] at hok
      · exact ⟨fun _ => hm, fun hf => by simp [getqrcodesCmd] at hf⟩
    by_cases h8 : name = "activate"
    · subst h8
      simp only [CommandsLookup] at hlook
      simp at hlook
      subst hlook
      simp [BuildCommandXML, CommandsLookup] at hok
      by_cases hm : opts.TargetMAC = ""
      · simp [hm] at hok
      · by_cases hp : opts.Password = ""
        · simp [hm, hp] at hok
        · exact ⟨fun _ => hm, fun _ => hp⟩
    by_cases h9 : name = "reboot"
    · subst h9
      simp only [CommandsLookup] at hlook
      simp at hlook
      subst hlook
      simp [BuildCommandXML, CommandsLookup] at hok
      by_cases hm : opts.TargetMAC = ""
      · simp [hm] at hok
      · by_cases hp : opts.Password = ""
        · simp [hm, hp] at hok
        · exact ⟨fun _ => hm, fun _ => hp⟩
    by_cases h10 : name = "restore"
    · subst h10
      simp only [CommandsLookup] at hlook
      simp at hlook
      subst hlook
      simp [BuildCommandXML, CommandsLookup] at hok
      by_cases hm : opts.TargetMAC = ""
      · simp [hm] at hok
      · by_cases hp : opts.Password = ""
        · simp [hm, hp] at hok
        · exact ⟨fun _ => hm, fun _ => hp⟩
    by_cases h11 : name = "ezvizunbind"
    · subst h11
      simp only [CommandsLookup] at hlook
      simp at hlook
      subst hlook
      simp [BuildCommandXML, CommandsLookup] at hok
      by_cases hm : opts.TargetMAC = ""
      · simp [hm] at hok
      · by_cases hp : opts.Password = ""
        · simp [hm, hp] at hok
        · exact ⟨fun _ => hm, fun _ => hp⟩
    by_cases h12 : name = "resetpassword"
    · subst h12
      simp only [CommandsLookup] at hlook
      simp at hlook
      subst hlook
      simp [BuildCommandXML, CommandsLookup] at hok
      by_cases hm : opts.TargetMAC = ""
      · simp [hm] at hok
      · by_cases hc : opts.Code = ""
        · simp [hm, hc] at hok
        · by_cases hp : opts.Password = ""
          · simp [hm, hc, hp] at hok
          · exact ⟨fun _ => hm, fun _ => hp⟩
    by_cases h13 : name = "securitycode"
    · subst h13
      simp only [CommandsLookup] at hlook
      simp at hlook
      subst hlook
      simp [BuildCommandXML, CommandsLookup] at hok
      by_cases hm : opts.TargetMAC = ""
      · simp [hm] at hok
      · by_cases hc : opts.Code = ""
        · simp [hm, hc] at hok
        · by_cases hp : opts.Password = ""
          · simp [hm, hc, hp] at hok
          · exact ⟨fun _ => hm, fun _ => hp⟩
    by_cases h14 : name = "setmailbox"
    · subst h14
      simp only [CommandsLookup] at hlook
      simp at hlook
      subst hlook
      simp [BuildCommandXML, CommandsLookup] at hok
      by_cases hcond : opts.TargetMAC = "" ∨ opts.Password = "" ∨ opts.Email = ""
      · simp [hcond] at hok
      · push_neg at hcond
        exact ⟨fun _ => hcond.1, fun _ => hcond.2.1⟩
    by_cases h15 : name = "update"
    · subst h15
      simp only [CommandsLookup] at hlook
      simp at hlook
      subst hlook
      simp [BuildCommandXML, CommandsLookup] at hok
      by_cases hcond : opts.TargetMAC = "" ∨ opts.Password = ""
      · simp [hcond] at hok
      · push_neg at hcond
        exact ⟨fun _ => hcond.1, fun _ => hcond.2⟩
    simp [CommandsLookup, h1, h2, h3, h4, h5, h6, h7, h8, h9, h10, h11, h12, h13,
      h14, h15] at hlook

/-- **C4 witness**: the unknown-command, missing-MAC, missing-password and
success clauses of `C4_build_command_validation` applied at concrete inputs. -/
theorem C4_build_command_validation_witness :
    BuildCommandXML "u0" "nonexistent" {} = .error ("unknown command: " ++ "nonexistent") ∧
    BuildCommandXML "u0" "activate" {} = .error "MAC address required for activate command" ∧
    BuildCommandXML "u0" "activate" { TargetMAC := "AA:BB:CC:DD:EE:FF" } =
      .error "password required for activate command" ∧
    BuildCommandXML "u0" "activate" { TargetMAC := "AA:BB:CC:DD:EE:FF", Password := "test123" } =
      .ok ("<?xml version=\"1.0\" encoding=\"utf-8\"?><Probe><Uuid>" ++ "u0" ++
        "</Uuid><MAC>" ++ "AA:BB:CC:DD:EE:FF" ++ "</MAC><Types>activate</Types><Password>" ++
        "test123" ++ "</Password></Probe>") :=
  ⟨C4_build_command_validation.1 "u0" "nonexistent" {} (by decide),
   C4_build_command_validation.2.1 "u0" {} (by decide),
   C4_build_command_validation.2.2.1 "u0" { TargetMAC := "AA:BB:CC:DD:EE:FF" }
     (by decide) (by decide),
   C4_build_command_validation.2.2.2.1 "u0"
     { TargetMAC := "AA:BB:CC:DD:EE:FF", Password := "test123" } (by decide) (by decide)⟩

/-- **C5**: for the `update` command with MAC and password supplied,
`BuildCommandXML` fills every unset network setting with its default — new IP
defaults to the target IP, new mask to `255.255.255.0`, new port to `8000`,
DHCP to disabled (the string `false` in the XML) — and uses explicitly
supplied values instead of the defaults when they are set. -/
theorem C5_update_defaults :
    (∀ (u : String) (opts : SendOptions),
      opts.TargetMAC ≠ "" → opts.Password ≠ "" →
      opts.NewIP = "" → opts.NewMask = "" → opts.NewPort = 0 → opts.DHCP = false →
      BuildCommandXML u "update" opts =
        .ok ("<?xml version=\"1.0\" encoding=\"utf-8\"?><Probe><Uuid>" ++ u ++
          "</Uuid><Types>update</Types><PWErrorParse>true</PWErrorParse><MAC>" ++
          opts.TargetMAC ++ "</MAC><Password>" ++ opts.Password ++
          "</Password><IPv4Address>" ++ opts.TargetIP ++
          "</IPv4Address><CommandPort>8000</CommandPort><IPv4SubnetMask>" ++
          "255.255.255.0" ++ "</IPv4SubnetMask><IPv4Gateway>" ++ opts.NewGateway ++
          "</IPv4Gateway><DHCP>false</DHCP></Probe>")) ∧
    (∀ (u : String) (opts : SendOptions),
      opts.TargetMAC ≠ "" → opts.Password ≠ "" →
      opts.NewIP ≠ "" → opts.NewMask ≠ "" → opts.NewPort ≠ 0 → opts.DHCP = true →
      BuildCommandXML u "update" opts =
        .ok ("<?xml version=\"1.0\" encoding=\"utf-8\"?><Probe><Uuid>" ++ u ++
          "</Uuid><Types>update</Types><PWErrorParse>true</PWErrorParse><MAC>" ++
          opts.TargetMAC ++ "</MAC><Password>" ++ opts.Password ++
          "</Password><IPv4Address>" ++ opts.NewIP ++
          "</IPv4Address><CommandPort>" ++ String.mk (intRepr opts.NewPort) ++
          "</CommandPort><IPv4SubnetMask>" ++ opts.NewMask ++
          "</IPv4SubnetMask><IPv4Gateway>" ++ opts.NewGateway ++
          "</IPv4Gateway><DHCP>true</DHCP></Probe>")) := by
  constructor
  · intro u opts hm hp hip hmask hport hd
    have h8 : intRepr 8000 = ['8', '0', '0', '0'] := by decide
    simp [BuildCommandXML, CommandsLookup, hm, hp, hip, hmask, hport, hd, updateCmd,
      sprintf, goSprintfAux, h8, String.ext_iff]
  · intro u opts hm hp hip hmask hport hd
    simp [BuildCommandXML, CommandsLookup, hm, hp, hip, hmask, hport, hd, updateCmd,
      sprintf, goSprintfAux, String.ext_iff]

/-- **C5 witness**: the default and explicit clauses of `C5_update_defaults` at
concrete inputs: with only MAC/password/target IP set, the output carries the
default mask `255.255.255.0`, port `8000` and `DHCP>false`; with explicit
settings the supplied values are used. -/
theorem C5_update_defaults_witness :
    BuildCommandXML "u0" "update"
        { TargetMAC := "AA:BB:CC:DD:EE:FF", Password := "admin",
          TargetIP := "192.168.1.100" } =
      .ok ("<?xml version=\"1.0\" encoding=\"utf-8\"?><Probe><Uuid>" ++ "u0" ++
        "</Uuid><Types>update</Types><PWErrorParse>true</PWErrorParse><MAC>" ++
        "AA:BB:CC:DD:EE:FF" ++ "</MAC><Password>" ++ "admin" ++
        "</Password><IPv4Address>" ++ "192.168.1.100" ++
        "</IPv4Address><CommandPort>8000</CommandPort><IPv4SubnetMask>" ++
        "255.255.255.0" ++ "</IPv4SubnetMask><IPv4Gateway>" ++ "" ++
        "</IPv4Gateway><DHCP>false</DHCP></Probe>") ∧
    BuildCommandXML "u0" "update"
        { TargetMAC := "AA:BB:CC:DD:EE:FF", Password := "admin", NewIP := "10.0.0.100",
          NewMask := "255.255.0.0", NewGateway := "10.0.0.1", NewPort := 9000,
          DHCP := true } =
      .ok ("<?xml version=\"1.0\" encoding=\"utf-8\"?><Probe><Uuid>" ++ "u0" ++
        "</Uuid><Types>update</Types><PWErrorParse>true</PWErrorParse><MAC>" ++
        "AA:BB:CC:DD:EE:FF" ++ "</MAC><Password>" ++ "admin" ++
        "</Password><IPv4Address>" ++ "10.0.0.100" ++
        "</IPv4Address><CommandPort>" ++ String.mk (intRepr 9000) ++
        "</CommandPort><IPv4SubnetMask>" ++ "255.255.0.0" ++
        "</IPv4SubnetMask><IPv4Gateway>" ++ "10.0.0.1" ++
        "</IPv4Gateway><DHCP>true</DHCP></Probe>") :=
  ⟨C5_update_defaults.1 "u0"
      { TargetMAC := "AA:BB:CC:DD:EE:FF", Password := "admin", TargetIP := "192.168.1.100" }
      (by decide) (by decide) (by decide) (by decide) (by decide) (by decide),
   C5_update_defaults.2 "u0"
      { TargetMAC := "AA:BB:CC:DD:EE:FF", Password := "admin", NewIP := "10.0.0.100",
        NewMask := "255.255.0.0", NewGateway := "10.0.0.1", NewPort := 9000, DHCP := true }
      (by decide) (by decide) (by decide) (by decide) (by decide) (by decide)⟩

theorem goSprintfAux_lit (lit fmt : List Char) (args : List GoArg)
    (h : ∀ c ∈ lit, c ≠ '%') :
    goSprintfAux (lit ++ fmt) args = lit ++ goSprintfAux fmt args := by
  induction lit generalizing args with
  | nil => simp
  | cons c l ih =>
    have hc : c ≠ '%' := h c (by simp)
    have hl : ∀ x ∈ l, x ≠ '%' := fun x hx => h x (by simp [hx])
    rw [List.cons_append, goSprintfAux.eq_def]
    split <;> simp_all

theorem sprintf_uuid_split (T : String) (tailFmt : List Char)
    (hT : T.data = xmlUuidLead.data ++ '%' :: 's' :: tailFmt)
    (u : String) (args : List GoArg) :
    sprintf T (.s u :: args) = xmlUuidLead ++ u ++ String.mk (goSprintfAux tailFmt args) := by
  unfold sprintf
  rw [hT, goSprintfAux_lit _ _ _ (by decide)]
  simp [goSprintfAux, String.ext_iff]

theorem build_ok_split (T : String) (tailFmt : List Char)
    (hT : T.data = xmlUuidLead.data ++ '%' :: 's' :: tailFmt)
    (u1 u2 : String) (args : List GoArg) (out1 : String)
    (hout : sprintf T (.s u1 :: args) = out1) :
    ∃ t : String, out1 = xmlUuidLead ++ u1 ++ t ∧
      sprintf T (.s u2 :: args) = xmlUuidLead ++ u2 ++ t :=
  ⟨String.mk (goSprintfAux tailFmt args),
   by rw [← hout, sprintf_uuid_split T tailFmt hT],
   sprintf_uuid_split T tailFmt hT u2 args⟩

/-- **C10**: `BuildCommandXML` is deterministic apart from the correlation id.
With the generated UUID made an explicit input of the embedding, the result is
a pure function of `(uuid, command name, options)` by construction (the
embedded function mutates nothing: the catalog `CommandsLookup` is a constant
and no scanner state enters the computation); moreover, two invocations that
differ only in the generated UUID either fail with the same error, or both
succeed with outputs identical except for the UUID: every success output is
the constant template head followed by the UUID followed by a tail that
depends only on the command name and options. -/
theorem C10_build_deterministic_mod_uuid (name : String) (opts : SendOptions)
    (u1 u2 : String) :
    (∀ e : String, BuildCommandXML u1 name opts = .error e ↔
                   BuildCommandXML u2 name opts = .error e) ∧
    (∀ out1 : String, BuildCommandXML u1 name opts = .ok out1 →
      ∃ t : String, out1 = xmlUuidLead ++ u1 ++ t ∧
        BuildCommandXML u2 name opts = .ok (xmlUuidLead ++ u2 ++ t)) := by
  by_cases h1 : name = "inquiry"
  · subst h1
    refine ⟨fun e => by simp [BuildCommandXML, CommandsLookup], fun out1 hout => ?_⟩
    simp [BuildCommandXML, CommandsLookup] at hout
    obtain ⟨t, ht1, ht2⟩ := build_ok_split _
      ("</Uuid><Types>inquiry</Types></Probe>".data) (by decide) u1 u2 _ _ hout
    exact ⟨t, ht1, by simp [BuildCommandXML, CommandsLookup, ht2]⟩
  by_cases h2 : name = "inquiry_v32"
  · subst h2
    refine ⟨fun e => by simp [BuildCommandXML, CommandsLookup], fun out1 hout => ?_⟩
    simp [BuildCommandXML, CommandsLookup] at hout
    obtain ⟨t, ht1, ht2⟩ := build_ok_split _
      ("</Uuid><Types>inquiry_v32</Types></Probe>".data) (by decide) u1 u2 _ _ hout
    exact ⟨t, ht1, by simp [BuildCommandXML, CommandsLookup, ht2]⟩
  by_cases h3 : name = "exchangecode"
  · subst h3
    refine ⟨fun e => ?_, fun out1 hout => ?_⟩
    · by_cases hm : opts.TargetMAC = "" <;> simp [BuildCommandXML, CommandsLookup, hm]
    · by_cases hm : opts.TargetMAC = ""
      · simp [BuildCommandXML, CommandsLookup, hm] at hout
      · simp [BuildCommandXML, CommandsLookup, hm] at hout
        obtain ⟨t, ht1, ht2⟩ := build_ok_split _
          ("</Uuid><MAC>%s</MAC><Types>exchangecode</Types><Code></Code></Probe>".data)
          (by decide) u1 u2 _ _ hout
        exact ⟨t, ht1, by simp [BuildCommandXML, CommandsLookup, hm, ht2]⟩
  by_cases h4 : name = "getencryptstring"
  · subst h4
    refine ⟨fun e => ?_, fun out1 hout => ?_⟩
    · by_cases hm : opts.TargetMAC = "" <;> simp [BuildCommandXML, CommandsLookup, hm]
    · by_cases hm : opts.TargetMAC = ""
      · simp [BuildCommandXML, CommandsLookup, hm] at hout
      · simp [BuildCommandXML, CommandsLookup, hm] at hout
        obtain ⟨t, ht1, ht2⟩ := build_ok_split _
          ("</Uuid><MAC>%s</MAC><Types>getencryptstring</Types></Probe>".data)
          (by decide) u1 u2 _ _ hout
        exact ⟨t, ht1, by simp [BuildCommandXML, CommandsLookup, hm, ht2]⟩
  by_cases h5 : name = "getencryptstring_v31"
  · subst h5
    refine ⟨fun e => ?_, fun out1 hout => ?_⟩
    · by_cases hm : opts.TargetMAC = "" <;> simp [BuildCommandXML, CommandsLookup, hm]
    · by_cases hm : opts.TargetMAC = ""
      · simp [BuildCommandXML, CommandsLookup, hm] at hout
      · simp [BuildCommandXML, CommandsLookup, hm] at hout
        obtain ⟨t, ht1, ht2⟩ := build_ok_split _
          ("</Uuid><MAC>%s</MAC><Types>getencryptstring_v31</Types></Probe>".data)
          (by decide) u1 u2 _ _ hout
        exact ⟨t, ht1, by simp [BuildCommandXML, CommandsLookup, hm, ht2]⟩
  by_cases h6 : name = "getbindlist"
  · subst h6
    refine ⟨fun e => ?_, fun out1 hout => ?_⟩
    · by_cases hm : opts.TargetMAC = "" <;> simp [BuildCommandXML, CommandsLookup, hm]
    · by_cases hm : opts.TargetMAC = ""
      · simp [BuildCommandXML, CommandsLookup, hm] at hout
      · simp [BuildCommandXML, CommandsLookup, hm] at hout
        obtain ⟨t, ht1, ht2⟩ := build_ok_split _
          ("</Uuid><MAC>%s</MAC><Types>getBindList</Types></Probe>".data)
          (by decide) u1 u2 _ _ hout
        exact ⟨t, ht1, by simp [BuildCommandXML, CommandsLookup, hm, ht2]⟩
  by_cases h7 : name = "getqrcodes"
  · subst h7
    refine ⟨fun e => ?_, fun out1 hout => ?_⟩
    · by_cases hm : opts.TargetMAC = "" <;> simp [BuildCommandXML, CommandsLookup, hm]
    · by_cases hm : opts.TargetMAC = ""
      · simp [BuildCommandXML, CommandsLookup, hm] at hout
      · simp [BuildCommandXML, CommandsLookup, hm] at hout
        obtain ⟨t, ht1, ht2⟩ := build_ok_split _
          ("</Uuid><MAC>%s</MAC><Types>GetQRcodes</Types></Probe>".data)
          (by decide) u1 u2 _ _ hout
        exact ⟨t, ht1, by simp [BuildCommandXML, CommandsLookup, hm, ht2]⟩
  by_cases h8 : name = "activate"
  · subst h8
    refine ⟨fun e => ?_, fun out1 hout => ?_⟩
    · by_cases hm : opts.TargetMAC = "" <;> by_cases hp : opts.Password = "" <;>
        simp [BuildCommandXML, CommandsLookup, hm, hp]
    · by_cases hm : opts.TargetMAC = ""
      · simp [BuildCommandXML, CommandsLookup, hm] at hout
      · by_cases hp : opts.Password = ""
        · simp [BuildCommandXML, CommandsLookup, hm, hp] at hout
        · simp [BuildCommandXML, CommandsLookup, hm, hp] at hout
          obtain ⟨t, ht1, ht2⟩ := build_ok_split _
            ("</Uuid><MAC>%s</MAC><Types>activate</Types><Password>%s</Password></Probe>".data)
            (by decide) u1 u2 _ _ hout
          exact ⟨t, ht1, by simp [BuildCommandXML, CommandsLookup, hm, hp, ht2]⟩
  by_cases h9 : name = "reboot"
  · subst h9
    refine ⟨fun e => ?_, fun out1 hout => ?_⟩
    · by_cases hm : opts.TargetMAC = "" <;> by_cases hp : opts.Password = "" <;>
        simp [BuildCommandXML, CommandsLookup, hm, hp]
    · by_cases hm : opts.TargetMAC = ""
      · simp [BuildCommandXML, CommandsLookup, hm] at hout
      · by_cases hp : opts.Password = ""
        · simp [BuildCommandXML, CommandsLookup, hm, hp] at hout
        · simp [BuildCommandXML, CommandsLookup, hm, hp] at hout
          obtain ⟨t, ht1, ht2⟩ := build_ok_split _
            ("</Uuid><MAC>%s</MAC><Types>reboot</Types><Password>%s</Password></Probe>".data)
            (by decide) u1 u2 _ _ hout
          exact ⟨t, ht1, by simp [BuildCommandXML, CommandsLookup, hm, hp, ht2]⟩
  by_cases h10 : name = "restore"
  · subst h10
    refine ⟨fun e => ?_, fun out1 hout => ?_⟩
    · by_cases hm : opts.TargetMAC = "" <;> by_cases hp : opts.Password = "" <;>
        simp [BuildCommandXML, CommandsLookup, hm, hp]
    · by_cases hm : opts.TargetMAC = ""
      · simp [BuildCommandXML, CommandsLookup, hm] at hout
      · by_cases hp : opts.Password = ""
        · simp [BuildCommandXML, CommandsLookup, hm, hp] at hout
        · simp [BuildCommandXML, CommandsLookup, hm, hp] at hout
          obtain ⟨t, ht1, ht2⟩ := build_ok_split _
            ("</Uuid><MAC>%s</MAC><Types>restore</Types><Password>%s</Password></Probe>".data)
            (by decide) u1 u2 _ _ hout
          exact ⟨t, ht1, by simp [BuildCommandXML, CommandsLookup, hm, hp, ht2]⟩
  by_cases h11 : name = "ezvizunbind"
  · subst h11
    refine ⟨fun e => ?_, fun out1 hout => ?_⟩
    · by_cases hm : opts.TargetMAC = "" <;> by_cases hp : opts.Password = "" <;>
        simp [BuildCommandXML, CommandsLookup, hm, hp]
    · by_cases hm : opts.TargetMAC = ""
      · simp [BuildCommandXML, CommandsLookup, hm] at hout
      · by_cases hp : opts.Password = ""
        · simp [BuildCommandXML, CommandsLookup, hm, hp] at hout
        · simp [BuildCommandXML, CommandsLookup, hm, hp] at hout
          obtain ⟨t, ht1, ht2⟩ := build_ok_split _
            ("</Uuid><MAC>%s</MAC><Types>ezvizUnbind</Types><Password>%s</Password></Probe>".data)
            (by decide) u1 u2 _ _ hout
          exact ⟨t, ht1, by simp [BuildCommandXML, CommandsLookup, hm, hp, ht2]⟩
  by_cases h12 : name = "resetpassword"
  · subst h12
    refine ⟨fun e => ?_, fun out1 hout => ?_⟩
    · by_cases hm : opts.TargetMAC = "" <;> by_cases hc : opts.Code = "" <;>
        by_cases hp : opts.Password = "" <;>
        simp [BuildCommandXML, CommandsLookup, hm, hc, hp]
    · by_cases hm : opts.TargetMAC = ""
      · simp [BuildCommandXML, CommandsLookup, hm] at hout
      · by_cases hc : opts.Code = ""
        · simp [BuildCommandXML, CommandsLookup, hm, hc] at hout
        · by_cases hp : opts.Password = ""
          · simp [BuildCommandXML, CommandsLookup, hm, hc, hp] at hout
          · simp [BuildCommandXML, CommandsLookup, hm, hc, hp] at hout
            obtain ⟨t, ht1, ht2⟩ := build_ok_split _
              ("</Uuid><MAC>%s</MAC><Types>resetPassword</Types><Code>%s</Code><Password>%s</Password></Probe>".data)
              (by decide) u1 u2 _ _ hout
            exact ⟨t, ht1, by simp [BuildCommandXML, CommandsLookup, hm, hc, hp, ht2]⟩
  by_cases h13 : name = "securitycode"
  · subst h13
    refine ⟨fun e => ?_, fun out1 hout => ?_⟩
    · by_cases hm : opts.TargetMAC = "" <;> by_cases hc : opts.Code = "" <;>
        by_cases hp : opts.Password = "" <;>
        simp [BuildCommandXML, CommandsLookup, hm, hc, hp]
    · by_cases hm : opts.TargetMAC = ""
      · simp [BuildCommandXML, CommandsLookup, hm] at hout
      · by_cases hc : opts.Code = ""
        · simp [BuildCommandXML, CommandsLookup, hm, hc] at hout
        · by_cases hp : opts.Password = ""
          · simp [BuildCommandXML, CommandsLookup, hm, hc, hp] at hout
          · simp [BuildCommandXML, CommandsLookup, hm, hc, hp] at hout
            obtain ⟨t, ht1, ht2⟩ := build_ok_split _
              ("</Uuid><MAC>%s</MAC><Types>securityCode</Types><SecurityCode>%s</SecurityCode><Password>%s</Password></Probe>".data)
              (by decide) u1 u2 _ _ hout
            exact ⟨t, ht1, by simp [BuildCommandXML, CommandsLookup, hm, hc, hp, ht2]⟩
  by_cases h14 : name = "setmailbox"
  · subst h14
    refine ⟨fun e => ?_, fun out1 hout => ?_⟩
    · by_cases hcond : opts.TargetMAC = "" ∨ opts.Password = "" ∨ opts.Email = "" <;>
        simp [BuildCommandXML, CommandsLookup, hcond]
    · by_cases hcond : opts.TargetMAC = "" ∨ opts.Password = "" ∨ opts.Email = ""
      · simp [BuildCommandXML, CommandsLookup, hcond] at hout
      · simp [BuildCommandXML, CommandsLookup, hcond] at hout
        obtain ⟨t, ht1, ht2⟩ := build_ok_split _
          ("</Uuid><MAC>%s</MAC><Types>SetMailBox</Types><MailBox>%s</MailBox><Password>%s</Password></Probe>".data)
          (by decide) u1 u2 _ _ hout
        exact ⟨t, ht1, by simp [BuildCommandXML, CommandsLookup, hcond, ht2]⟩
  by_cases h15 : name = "update"
  · subst h15
    refine ⟨fun e => ?_, fun out1 hout => ?_⟩
    · by_cases hcond : opts.TargetMAC = "" ∨ opts.Password = "" <;>
        simp [BuildCommandXML, CommandsLookup, hcond]
    · by_cases hcond : opts.TargetMAC = "" ∨ opts.Password = ""
      · simp [BuildCommandXML, CommandsLookup, hcond] at hout
      · simp [BuildCommandXML, CommandsLookup, hcond] at hout
        obtain ⟨t, ht1, ht2⟩ := build_ok_split _
          ("</Uuid><Types>update</Types><PWErrorParse>true</PWErrorParse><MAC>%s</MAC><Password>%s</Password><IPv4Address>%s</IPv4Address><CommandPort>%d</CommandPort><IPv4SubnetMask>%s</IPv4SubnetMask><IPv4Gateway>%s</IPv4Gateway><DHCP>%s</DHCP></Probe>".data)
          (by decide) u1 u2 _ _ hout
        exact ⟨t, ht1, by simp [BuildCommandXML, CommandsLookup, hcond, ht2]⟩
  refine ⟨fun e => ?_, fun out1 hout => ?_⟩
  · simp [BuildCommandXML, CommandsLookup, h1, h2, h3, h4, h5, h6, h7, h8, h9, h10,
      h11, h12, h13, h14, h15]
  · simp [BuildCommandXML, CommandsLookup, h1, h2, h3, h4, h5, h6, h7, h8, h9, h10,
      h11, h12, h13, h14, h15] at hout

/-- **C10 witness**: the success clause of `C10_build_deterministic_mod_uuid`
applied to two `inquiry` invocations differing only in the UUID. -/
theorem C10_build_deterministic_mod_uuid_witness :
    ∃ t : String,
      sprintf inquiryCmd.Template [.s "uuid-a"] = xmlUuidLead ++ "uuid-a" ++ t ∧
      BuildCommandXML "uuid-b" "inquiry" {} = .ok (xmlUuidLead ++ "uuid-b" ++ t) :=
  (C10_build_deterministic_mod_uuid "inquiry" {} "uuid-a" "uuid-b").2
    (sprintf inquiryCmd.Template [.s "uuid-a"]) (by simp [BuildCommandXML, CommandsLookup])

/-- **C6**: `SendCommand` routing and timeout. When the target IP is empty or
`0.0.0.0`: with a MAC supplied (and the command built), the call takes the
broadcast-with-MAC-filter path; with no MAC supplied, it fails without
reaching any network path. On the unicast path an unset timeout defaults to 5
seconds and a supplied one is used as-is; a deadline-exceeded read is reported
as the distinct `"no response (timeout)"` condition, which no generic read
error ever equals. -/
theorem C6_send_command_routing :
    (∀ (u name : String) (opts : SendOptions) (xml : String),
      BuildCommandXML u name opts = .ok xml →
      (opts.TargetIP = "0.0.0.0" ∨ opts.TargetIP = "") → opts.TargetMAC ≠ "" →
      sendCommandRoute u name opts =
        .broadcastWithMAC xml (if opts.Timeout = 0 then fiveSecondsNs else opts.Timeout)) ∧
    (∀ (u name : String) (opts : SendOptions),
      (opts.TargetIP = "0.0.0.0" ∨ opts.TargetIP = "") → opts.TargetMAC = "" →
      ∀ (xml ip : String) (t : Nat),
        sendCommandRoute u name opts ≠ .broadcastWithMAC xml t ∧
        sendCommandRoute u name opts ≠ .unicast xml ip t) ∧
    (∀ (u name : String) (opts : SendOptions) (xml : String),
      BuildCommandXML u name opts = .ok xml →
      ¬(opts.TargetIP = "0.0.0.0" ∨ opts.TargetIP = "") →
      sendCommandRoute u name opts =
        .unicast xml opts.TargetIP
          (if opts.Timeout = 0 then fiveSecondsNs else opts.Timeout)) ∧
    classifyUnicastRead .timeout = .error "no response (timeout)" ∧
    (∀ msg : String,
      classifyUnicastRead (.ioError msg) ≠ .error "no response (timeout)") := by
  refine ⟨?_, ?_, ?_, rfl, ?_⟩
  · intro u name opts xml hb hip hm
    unfold sendCommandRoute
    rw [hb]
    simp [hip, hm]
  · intro u name opts hip hm xml ip t
    unfold sendCommandRoute
    cases hb : BuildCommandXML u name opts with
    | error e => exact ⟨by simp, by simp⟩
    | ok x => exact ⟨by simp [hip, hm], by simp [hip, hm]⟩
  · intro u name opts xml hb hip
    unfold sendCommandRoute
    rw [hb]
    simp [hip]
  · intro msg
    unfold classifyUnicastRead
    intro hcon
    injection hcon with h
    have := congrArg String.data h
    simp [String.ext_iff] at this

/-- **C6 witness**: the three routing clauses of `C6_send_command_routing`
applied at concrete inputs: a `reboot` to the any-address with a MAC takes the
broadcast path with the default 5s timeout, an `inquiry` to the any-address
without a MAC reaches no network path, and a `reboot` to `192.168.1.50` with
an explicit timeout takes the unicast path with that timeout. -/
theorem C6_send_command_routing_witness :
    (sendCommandRoute "u0" "reboot" { TargetMAC := "AA:BB:CC:DD:EE:FF", Password := "admin" } =
      .broadcastWithMAC
        ("<?xml version=\"1.0\" encoding=\"utf-8\"?><Probe><Uuid>" ++ "u0" ++
          "</Uuid><MAC>AA:BB:CC:DD:EE:FF</MAC><Types>reboot</Types><Password>admin</Password></Probe>")
        fiveSecondsNs) ∧
    (sendCommandRoute "u0" "inquiry" {} ≠
      .broadcastWithMAC "x" fiveSecondsNs) ∧
    (sendCommandRoute "u0" "reboot"
        { TargetIP := "192.168.1.50", TargetMAC := "AA:BB:CC:DD:EE:FF",
          Password := "admin", Timeout := 1000000000 } =
      .unicast
        ("<?xml version=\"1.0\" encoding=\"utf-8\"?><Probe><Uuid>" ++ "u0" ++
          "</Uuid><MAC>AA:BB:CC:DD:EE:FF</MAC><Types>reboot</Types><Password>admin</Password></Probe>")
        "192.168.1.50" 1000000000) := by
  refine ⟨?_, ?_, ?_⟩
  · have h := C6_send_command_routing.1 "u0" "reboot"
      { TargetMAC := "AA:BB:CC:DD:EE:FF", Password := "admin" }
      ("<?xml version=\"1.0\" encoding=\"utf-8\"?><Probe><Uuid>" ++ "u0" ++
        "</Uuid><MAC>AA:BB:CC:DD:EE:FF</MAC><Types>reboot</Types><Password>admin</Password></Probe>")
      (by rfl) (by decide) (by decide)
    simpa using h
  · exact ((C6_send_command_routing.2.1 "u0" "inquiry" {} (by decide) (by decide)
      "x" "" fiveSecondsNs).1)
  · have h := C6_send_command_routing.2.2.1 "u0" "reboot"
      { TargetIP := "192.168.1.50", TargetMAC := "AA:BB:CC:DD:EE:FF",
        Password := "admin", Timeout := 1000000000 }
      ("<?xml version=\"1.0\" encoding=\"utf-8\"?><Probe><Uuid>" ++ "u0" ++
        "</Uuid><MAC>AA:BB:CC:DD:EE:FF</MAC><Types>reboot</Types><Password>admin</Password></Probe>")
      (by rfl) (by decide)
    simpa using h

theorem char_toNat_ofNat_lt (n : Nat) (h : n < 55296) : (Char.ofNat n).toNat = n := by
  rw [Char.ofNat, dif_pos (Or.inl h : Nat.isValidChar n)]
  simp [Char.ofNatAux, Char.toNat, UInt32.ofNat', UInt32.toNat, BitVec.toNat_ofNatLt]

theorem char_le_iff_toNat (a b : Char) : a ≤ b ↔ a.toNat ≤ b.toNat := by
  simp [Char.le_def, UInt32.le_def, BitVec.le_def, Char.toNat, UInt32.toNat]

theorem goUpperChar_ne_dash (b : Char) (hb : b ≠ '-') : goUpperChar b ≠ '-' := by
  unfold goUpperChar
  by_cases hl : 'a' ≤ b ∧ b ≤ 'z'
  · rw [if_pos hl]
    obtain ⟨h1, h2⟩ := hl
    rw [char_le_iff_toNat] at h1 h2
    have ha : ('a' : Char).toNat = 97 := by decide
    have hz : ('z' : Char).toNat = 122 := by decide
    rw [ha] at h1; rw [hz] at h2
    intro hcon
    have hx := congrArg Char.toNat hcon
    rw [char_toNat_ofNat_lt _ (by omega)] at hx
    have hd : ('-' : Char).toNat = 45 := by decide
    rw [hd] at hx
    omega
  · rw [if_neg hl]; exact hb

theorem goUpperChar_not_lower (b : Char) : ¬('a' ≤ goUpperChar b ∧ goUpperChar b ≤ 'z') := by
  unfold goUpperChar
  by_cases hl : 'a' ≤ b ∧ b ≤ 'z'
  · rw [if_pos hl]
    obtain ⟨h1, h2⟩ := hl
    rw [char_le_iff_toNat] at h1 h2
    have ha : ('a' : Char).toNat = 97 := by decide
    have hz : ('z' : Char).toNat = 122 := by decide
    rw [ha] at h1; rw [hz] at h2
    rintro ⟨g1, g2⟩
    rw [char_le_iff_toNat] at g1 g2
    have hofnat : (Char.ofNat (b.toNat - 32)).toNat = b.toNat - 32 :=
      char_toNat_ofNat_lt _ (by omega)
    rw [hofnat] at g1 g2
    rw [ha] at g1
    rw [hz] at g2
    omega
  · rw [if_neg hl]; exact hl

/-- **C7**: discovery response parsing. For every payload and every decoder:
when the payload contains neither `"<ProbeMatch"` nor `"ProbeMatch>"` the
parser yields no device — independently of the decoder, i.e. without any XML
parse; when the decoder rejects the payload (structurally invalid XML) the
parser yields `none` rather than an error; on success the parsed MAC is
normalized by mapping dashes to colons and upper-casing, so the resulting MAC
contains no dash and no lowercase ASCII letter, and inputs differing only in
dash versus colon separators normalize identically
(`"aa-bb-cc-dd-ee-0f" ↦ "AA:BB:CC:DD:EE:0F"`). -/
theorem C7_parse_response_marker_and_mac :
    (∀ (decode : String → Option Device) (data : String),
      containsSub data "<ProbeMatch" = false → containsSub data "ProbeMatch>" = false →
      parseResponse decode data = none) ∧
    (∀ (decode : String → Option Device) (data : String),
      decode data = none → parseResponse decode data = none) ∧
    (∀ (decode : String → Option Device) (data : String) (d : Device),
      decode data = some d →
      (containsSub data "<ProbeMatch" = true ∨ containsSub data "ProbeMatch>" = true) →
      parseResponse decode data = some { d with MAC := normalizeMAC d.MAC }) ∧
    (∀ (s : String), ∀ c ∈ (normalizeMAC s).data,
      c ≠ '-' ∧ ¬('a' ≤ c ∧ c ≤ 'z')) ∧
    (∀ s : String,
      normalizeMAC (String.mk (s.data.map (fun c => if c = ':' then '-' else c))) =
        normalizeMAC s) ∧
    normalizeMAC "aa-bb-cc-dd-ee-0f" = "AA:BB:CC:DD:EE:0F" := by
  refine ⟨?_, ?_, ?_, ?_, ?_, by decide⟩
  · intro decode data h1 h2
    unfold parseResponse
    rw [h1, h2]
    rfl
  · intro decode data hdec
    unfold parseResponse
    rw [hdec]
    cases h1 : containsSub data "<ProbeMatch" <;>
      cases h2 : containsSub data "ProbeMatch>" <;> rfl
  · intro decode data d hdec hmark
    unfold parseResponse
    rw [hdec]
    rcases hmark with h | h <;> rw [h] <;> simp
  · intro s c hc
    simp only [normalizeMAC, List.mem_map] at hc
    obtain ⟨b, hb, rfl⟩ := hc
    obtain ⟨a, _, rfl⟩ := hb
    have hbne : (if a = '-' then ':' else a) ≠ '-' := by
      by_cases hd : a = '-' <;> simp [hd]
    exact ⟨goUpperChar_ne_dash _ hbne, goUpperChar_not_lower _⟩
  · intro s
    unfold normalizeMAC
    simp only [List.map_map]
    congr 1
    apply List.map_congr_left
    intro a _
    by_cases h1 : a = ':'
    · simp [h1, Function.comp]
    · by_cases h2 : a = '-' <;> simp [h1, h2, Function.comp]

/-- **C7 witness**: the marker, invalid-XML and success clauses of
`C7_parse_response_marker_and_mac` applied at concrete payloads and
decoders. -/
theorem C7_parse_response_marker_and_mac_witness :
    parseResponse (fun _ => some {}) "random multicast noise" = none ∧
    parseResponse (fun _ => none) "<ProbeMatch>garbage" = none ∧
    parseResponse (fun _ => some { MAC := "aa-bb-cc-dd-ee-0f" }) "<ProbeMatch/>" =
      some { MAC := normalizeMAC "aa-bb-cc-dd-ee-0f" } :=
  ⟨C7_parse_response_marker_and_mac.1 (fun _ => some {}) "random multicast noise"
      (by decide) (by decide),
   C7_parse_response_marker_and_mac.2.1 (fun _ => none) "<ProbeMatch>garbage" rfl,
   C7_parse_response_marker_and_mac.2.2.1 (fun _ => some { MAC := "aa-bb-cc-dd-ee-0f" })
      "<ProbeMatch/>" { MAC := "aa-bb-cc-dd-ee-0f" } rfl (Or.inl (by decide))⟩

theorem xmlUnescapeAux_escape (fuel : Nat) :
    ∀ l : List Char, (xmlEscape l).length < fuel →
      xmlUnescapeAux fuel (xmlEscape l) = some l := by
  induction fuel with
  | zero => intro l h; omega
  | succ fuel ih =>
    intro l hlen
    match l with
    | [] => rfl
    | c :: rest =>
      show xmlUnescapeAux (fuel + 1) (xmlEscapeChar c ++ xmlEscape rest) = some (c :: rest)
      have hclen : (xmlEscapeChar c ++ xmlEscape rest).length < fuel + 1 := hlen
      rw [List.length_append] at hclen
      have h1len : 1 ≤ (xmlEscapeChar c).length := by
        unfold xmlEscapeChar
        split_ifs <;> simp
      have hrest : (xmlEscape rest).length < fuel := by omega
      by_cases h1 : c = Char.ofNat 34
      · subst h1
        simp [xmlEscapeChar, xmlUnescapeAux, entityStep, leadMatch, ih _ hrest]
      by_cases h2 : c = Char.ofNat 39
      · subst h2
        simp [xmlEscapeChar, h1, xmlUnescapeAux, entityStep, leadMatch, ih _ hrest]
      by_cases h3 : c = '&'
      · subst h3
        simp [xmlEscapeChar, h1, h2, xmlUnescapeAux, entityStep, leadMatch, ih _ hrest]
      by_cases h4 : c = '<'
      · subst h4
        simp [xmlEscapeChar, h1, h2, h3, xmlUnescapeAux, entityStep, leadMatch, ih _ hrest]
      by_cases h5 : c = '>'
      · subst h5
        simp [xmlEscapeChar, h1, h2, h3, h4, xmlUnescapeAux, entityStep, leadMatch,
          ih _ hrest]
      by_cases h6 : c = Char.ofNat 9
      · subst h6
        simp [xmlEscapeChar, h1, h2, h3, h4, h5, xmlUnescapeAux, entityStep, leadMatch,
          ih _ hrest]
      by_cases h7 : c = Char.ofNat 10
      · subst h7
        simp [xmlEscapeChar, h1, h2, h3, h4, h5, h6, xmlUnescapeAux, entityStep, leadMatch,
          ih _ hrest]
      by_cases h8 : c = Char.ofNat 13
      · subst h8
        simp [xmlEscapeChar, h1, h2, h3, h4, h5, h6, h7, xmlUnescapeAux, entityStep,
          leadMatch, ih _ hrest]
      have hesc : xmlEscapeChar c = [c] := by
        unfold xmlEscapeChar
        rw [if_neg h1, if_neg h2, if_neg h3, if_neg h4, if_neg h5, if_neg h6, if_neg h7,
          if_neg h8]
      rw [hesc, List.singleton_append]
      show (if c = '&' then _ else (xmlUnescapeAux fuel (xmlEscape rest)).map
        (fun l2 => c :: l2)) = _
      rw [if_neg h3, ih _ hrest]
      rfl

theorem xmlUnescape_escape (l : List Char) : xmlUnescape (xmlEscape l) = some l :=
  xmlUnescapeAux_escape _ l (by omega)

theorem xmlEscapeChar_ne_lt (c x : Char) (hx : x ∈ xmlEscapeChar c) : x ≠ '<' := by
  intro hcon
  subst hcon
  unfold xmlEscapeChar at hx
  split_ifs at hx with h1 h2 h3 h4 h5 h6 h7 h8
  · exact absurd hx (by decide)
  · exact absurd hx (by decide)
  · exact absurd hx (by decide)
  · exact absurd hx (by decide)
  · exact absurd hx (by decide)
  · exact absurd hx (by decide)
  · exact absurd hx (by decide)
  · exact absurd hx (by decide)
  · simp only [List.mem_singleton] at hx
    exact h4 hx.symm

theorem xmlEscape_ne_lt (l : List Char) (x : Char) (hx : x ∈ xmlEscape l) : x ≠ '<' := by
  induction l with
  | nil => simp [xmlEscape] at hx
  | cons c rest ih =>
    simp only [xmlEscape, List.mem_append] at hx
    rcases hx with h | h
    · exact xmlEscapeChar_ne_lt c x h
    · exact ih h

theorem digitChar_ne_dash (k : Nat) : digitChar k ≠ '-' := by
  unfold digitChar
  split <;> decide

theorem digitChar_ne_lt (k : Nat) : digitChar k ≠ '<' := by
  unfold digitChar
  split <;> decide

theorem digitVal?_digitChar (k : Nat) (h : k < 10) : digitVal? (digitChar k) = some k := by
  interval_cases k <;> rfl

theorem digitsValAux_append (acc : Nat) (a b : List Char) :
    digitsValAux acc (a ++ b) =
      (digitsValAux acc a).bind (fun acc2 => digitsValAux acc2 b) := by
  induction a generalizing acc with
  | nil => rfl
  | cons c rest ih =>
    rw [List.cons_append]
    cases hd : digitVal? c with
    | none => simp [digitsValAux, hd]
    | some d => simp [digitsValAux, hd, ih]

theorem digitsValAux_natDigits (fuel : Nat) :
    ∀ n acc : Nat, n < 10 ^ fuel → 0 < fuel →
      digitsValAux acc (natDigits fuel n) =
        some (acc * 10 ^ (natDigits fuel n).length + n) := by
  induction fuel with
  | zero => intro n acc _ h0; omega
  | succ fuel ih =>
    intro n acc hn _
    by_cases hsmall : n < 10
    · unfold natDigits
      rw [if_pos hsmall]
      simp [digitsValAux, digitVal?_digitChar n hsmall]
    · unfold natDigits
      rw [if_neg hsmall]
      have hfuel0 : 0 < fuel := by
        rcases Nat.eq_zero_or_pos fuel with h | h
        · subst h; simp at hn; omega
        · exact h
      have hdiv : n / 10 < 10 ^ fuel := by
        apply Nat.div_lt_of_lt_mul
        rw [Nat.pow_succ] at hn
        omega
      rw [digitsValAux_append, ih (n / 10) acc hdiv hfuel0]
      show digitsValAux (acc * 10 ^ (natDigits fuel (n / 10)).length + n / 10)
        [digitChar (n % 10)] = _
      unfold digitsValAux
      rw [digitVal?_digitChar (n % 10) (Nat.mod_lt n (by omega))]
      show some ((acc * 10 ^ (natDigits fuel (n / 10)).length + n / 10) * 10 + n % 10) = _
      rw [List.length_append, List.length_singleton, Nat.pow_succ]
      have heq : (acc * 10 ^ (natDigits fuel (n / 10)).length + n / 10) * 10 + n % 10 =
          acc * (10 ^ (natDigits fuel (n / 10)).length * 10) + (n / 10 * 10 + n % 10) := by
        ring
      rw [heq, Nat.div_add_mod']

theorem natDigits_ne_nil (fuel n : Nat) (h : 0 < fuel) : natDigits fuel n ≠ [] := by
  match fuel, h with
  | fuel + 1, _ =>
    unfold natDigits
    split
    · simp
    · simp

theorem digitsVal_natRepr (n : Nat) : digitsVal (natRepr n) = some n := by
  have hbound : n < 10 ^ (n + 1) :=
    lt_of_lt_of_le (Nat.lt_pow_self (by norm_num) n)
      (Nat.pow_le_pow_right (by norm_num) (by omega))
  unfold digitsVal natRepr
  rw [if_neg (by simpa [List.isEmpty_iff] using natDigits_ne_nil (n + 1) n (by omega))]
  rw [digitsValAux_natDigits (n + 1) n 0 hbound (by omega)]
  simp

theorem natDigits_head_ne_dash (fuel : Nat) :
    ∀ n : Nat, leadMatch ['-'] (natDigits fuel n) = false := by
  induction fuel with
  | zero => intro n; rfl
  | succ fuel ih =>
    intro n
    unfold natDigits
    split
    · simp [leadMatch, digitChar_ne_dash n]
      exact fun hc => absurd hc.symm (digitChar_ne_dash n)
    · cases hA : natDigits fuel (n / 10) with
      | nil =>
        simp [leadMatch]
        exact fun hc => absurd hc.symm (digitChar_ne_dash (n % 10))
      | cons a as =>
        have := ih (n / 10)
        rw [hA] at this
        simp [leadMatch] at this ⊢
        intro hc
        exact absurd hc this

theorem intParse_intRepr (n : Int) : intParse (intRepr n) = some n := by
  by_cases hn : n < 0
  · unfold intRepr
    rw [if_pos hn]
    unfold intParse
    rw [if_pos (by simp [leadMatch])]
    simp only [List.drop_succ_cons, List.drop_zero]
    rw [digitsVal_natRepr]
    have htn : (((-n).toNat : Nat) : Int) = -n := Int.toNat_of_nonneg (by omega)
    simp [htn]
  · unfold intRepr
    rw [if_neg hn]
    unfold intParse
    have hlm : leadMatch ['-'] (natRepr n.toNat) = false := by
      unfold natRepr
      exact natDigits_head_ne_dash _ _
    rw [if_neg (by rw [hlm]; simp)]
    rw [digitsVal_natRepr]
    have htn : ((n.toNat : Nat) : Int) = n := Int.toNat_of_nonneg (by omega)
    simp [htn]

theorem natDigits_all_digit (fuel : Nat) :
    ∀ n : Nat, ∀ c ∈ natDigits fuel n, ∃ k, c = digitChar k := by
  induction fuel with
  | zero => intro n c hc; simp [natDigits] at hc
  | succ fuel ih =>
    intro n c hc
    unfold natDigits at hc
    split at hc
    · simp at hc
      exact ⟨n, hc⟩
    · simp only [List.mem_append, List.mem_singleton] at hc
      rcases hc with h | h
      · exact ih (n / 10) c h
      · exact ⟨n % 10, h⟩

theorem intRepr_ne_lt (n : Int) (x : Char) (hx : x ∈ intRepr n) : x ≠ '<' := by
  unfold intRepr at hx
  split_ifs at hx
  · rcases List.mem_cons.mp hx with h | h
    · subst h; decide
    · obtain ⟨k, hk⟩ := natDigits_all_digit _ _ x h
      subst hk; exact digitChar_ne_lt k
  · obtain ⟨k, hk⟩ := natDigits_all_digit _ _ x hx
    subst hk; exact digitChar_ne_lt k

theorem leadMatch_append_self (t r : List Char) : leadMatch t (t ++ r) = true := by
  induction t with
  | nil => rfl
  | cons c rest ih => simp [leadMatch, ih]

theorem expectTok_append (t r : List Char) : expectTok t (t ++ r) = some r := by
  unfold expectTok
  rw [if_pos (leadMatch_append_self t r), List.drop_left]

theorem skipWs_indent1 (x : List Char) : skipWs (indent1 ++ x) = skipWs x := by
  simp [skipWs, indent1, List.dropWhile, isXmlWs]

theorem skipWs_indent2 (x : List Char) : skipWs (indent2 ++ x) = skipWs x := by
  simp [skipWs, indent2, List.dropWhile, isXmlWs]

theorem skipWs_nl (x : List Char) : skipWs ('\n' :: x) = skipWs x := by
  simp [skipWs, List.dropWhile, isXmlWs]

theorem skipWs_open_head (nm y : List Char) :
    skipWs (openTag nm ++ y) = openTag nm ++ y := by
  rw [openTag, List.cons_append]
  simp [skipWs, List.dropWhile, isXmlWs]

theorem skipWs_close_head (nm y : List Char) :
    skipWs (closeTag nm ++ y) = closeTag nm ++ y := by
  rw [closeTag, List.cons_append]
  simp [skipWs, List.dropWhile, isXmlWs]

theorem skipWs_close_self (nm : List Char) : skipWs (closeTag nm) = closeTag nm := by
  have := skipWs_close_head nm []
  simpa using this

theorem takeWhile_until_lt (e t : List Char) (he : ∀ c ∈ e, c ≠ '<') :
    (e ++ ('<' :: t)).takeWhile (fun c => !(c = '<')) = e ∧
    (e ++ ('<' :: t)).dropWhile (fun c => !(c = '<')) = '<' :: t := by
  induction e with
  | nil => simp [List.takeWhile, List.dropWhile]
  | cons c rest ih =>
    have hc : c ≠ '<' := he c (by simp)
    have hrest : ∀ x ∈ rest, x ≠ '<' := fun x hx => he x (by simp [hx])
    obtain ⟨iht, ihd⟩ := ih hrest
    constructor
    · rw [List.cons_append, List.takeWhile_cons]
      simp [hc, iht]
    · rw [List.cons_append, List.dropWhile_cons]
      simp [hc, ihd]

theorem strMk_data (s : String) : String.mk s.data = s := rfl

theorem parseStrField_round (nm : List Char) (v : String) (rest : List Char) :
    parseStrField nm (indent2 ++ (strFieldXML nm v ++ rest)) = some (v, rest) := by
  unfold parseStrField strFieldXML
  rw [List.append_assoc, skipWs_indent2, skipWs_open_head, expectTok_append]
  have hsplit := takeWhile_until_lt (xmlEscape v.data)
    ('/' :: (nm ++ ['>']) ++ rest) (fun c hc => xmlEscape_ne_lt v.data c hc)
  have hshape : xmlEscape v.data ++ closeTag nm ++ rest =
      xmlEscape v.data ++ ('<' :: ('/' :: (nm ++ ['>']) ++ rest)) := by
    rw [closeTag]
    simp
  rw [List.append_assoc] at hshape ⊢
  rw [hshape]
  simp only [Option.bind_eq_bind, Option.some_bind]
  rw [hsplit.1, hsplit.2, xmlUnescape_escape]
  simp only [Option.bind_eq_bind, Option.some_bind]
  have hclose : ('<' : Char) :: ('/' :: (nm ++ ['>']) ++ rest) = closeTag nm ++ rest := by
    rw [closeTag]
    simp
  rw [hclose, expectTok_append]
  simp [strMk_data]

theorem parseIntField_round (nm : List Char) (x : Int) (rest : List Char) :
    parseIntField nm (indent2 ++ (intFieldXML nm x ++ rest)) = some (x, rest) := by
  unfold parseIntField intFieldXML
  rw [List.append_assoc, skipWs_indent2, skipWs_open_head, expectTok_append]
  have hsplit := takeWhile_until_lt (intRepr x)
    ('/' :: (nm ++ ['>']) ++ rest) (fun c hc => intRepr_ne_lt x c hc)
  have hshape : intRepr x ++ closeTag nm ++ rest =
      intRepr x ++ ('<' :: ('/' :: (nm ++ ['>']) ++ rest)) := by
    rw [closeTag]
    simp
  rw [List.append_assoc] at hshape ⊢
  rw [hshape]
  simp only [Option.bind_eq_bind, Option.some_bind]
  rw [hsplit.1, hsplit.2, intParse_intRepr]
  simp only [Option.bind_eq_bind, Option.some_bind]
  have hclose : ('<' : Char) :: ('/' :: (nm ++ ['>']) ++ rest) = closeTag nm ++ rest := by
    rw [closeTag]
    simp
  rw [hclose, expectTok_append]
  simp

theorem stepS_round (nm : List Char) (set : Device → String → Device) (d : Device)
    (v : String) (rest : List Char) :
    stepS nm set (some (d, indent2 ++ (strFieldXML nm v ++ rest))) =
      some (set d v, rest) := by
  simp [stepS, parseStrField_round]

theorem stepI_round (nm : List Char) (set : Device → Int → Device) (d : Device)
    (x : Int) (rest : List Char) :
    stepI nm set (some (d, indent2 ++ (intFieldXML nm x ++ rest))) =
      some (set d x, rest) := by
  simp [stepI, parseIntField_round]

set_option maxHeartbeats 1000000 in
theorem parseDevice_round (d : Device) (rest : List Char) :
    parseDevice (deviceXML d ++ rest) = some (stripLocal d, rest) := by
  unfold parseDevice deviceXML
  simp only [List.append_assoc, skipWs_indent1, skipWs_open_head, expectTok_append,
    stepS_round, stepI_round, skipWs_close_head]
  rfl

theorem parseVersionAttr_round (x : List Char) :
    parseVersionAttr (sadpOpenTok ++ ("2.0".data ++ (attrClose ++ x))) =
      some ("2.0", x) := by
  unfold parseVersionAttr
  rw [expectTok_append]
  simp only [Option.bind_eq_bind, Option.some_bind]
  simp [attrClose, List.takeWhile, List.dropWhile, expectTok, leadMatch, List.drop,
    String.ext_iff]

theorem deviceXML_len (d : Device) : 1 ≤ (deviceXML d).length := by
  rw [deviceXML, List.length_append]
  have h3 : indent1.length = 3 := rfl
  omega

theorem devicesXML_len_ge (devs : List Device) :
    devs.length ≤ (devicesXML devs).length := by
  induction devs with
  | nil => simp [devicesXML]
  | cons d ds ih =>
    rw [devicesXML, List.length_append]
    simp only [List.length_cons]
    have := deviceXML_len d
    omega

theorem leadMatch_sadpClose_device (d : Device) (r : List Char) :
    leadMatch (closeTag sadpName) (skipWs (deviceXML d ++ r)) = false := by
  rw [deviceXML]
  simp only [List.append_assoc, skipWs_indent1, skipWs_open_head]
  rw [closeTag, openTag]
  simp [leadMatch, sadpName]

theorem parseDevices_round (devs : List Device) :
    ∀ (fuel : Nat) (rest : List Char), devs.length < fuel →
      leadMatch (closeTag sadpName) (skipWs rest) = true →
      parseDevices fuel (devicesXML devs ++ rest) = some (devs.map stripLocal, rest) := by
  induction devs with
  | nil =>
    intro fuel rest hfuel hstop
    match fuel, hfuel with
    | fuel + 1, _ =>
      rw [devicesXML, List.nil_append]
      unfold parseDevices
      rw [if_pos hstop]
      simp
  | cons d ds ih =>
    intro fuel rest hfuel hstop
    match fuel, hfuel with
    | fuel + 1, hf =>
      rw [devicesXML, List.append_assoc]
      unfold parseDevices
      rw [if_neg (by rw [leadMatch_sadpClose_device]; simp)]
      rw [parseDevice_round]
      have hlen : ds.length < fuel := by
        simp only [List.length_cons] at hf
        omega
      simp [ih fuel rest hlen hstop]

theorem toXML_parse_round (devs : List Device) :
    parseSADPXML (ToXML devs) = some ("2.0", devs.map stripLocal) := by
  unfold parseSADPXML ToXML
  rw [String.data_append]
  have hmk : (String.mk (sadpOpenTok ++ ("2.0".data ++ (attrClose ++ (devicesXML devs ++
      ((if devs.isEmpty then [] else ['\n']) ++ closeTag sadpName)))))).data =
      sadpOpenTok ++ ("2.0".data ++ (attrClose ++ (devicesXML devs ++
      ((if devs.isEmpty then [] else ['\n']) ++ closeTag sadpName)))) := rfl
  rw [hmk, expectTok_append]
  simp only [Option.bind_eq_bind, Option.some_bind]
  rw [parseVersionAttr_round]
  simp only [Option.bind_eq_bind, Option.some_bind]
  have hstop : leadMatch (closeTag sadpName)
      (skipWs ((if devs.isEmpty then [] else ['\n']) ++ closeTag sadpName)) = true := by
    cases devs with
    | nil =>
      have hif : (if ([] : List Device).isEmpty then ([] : List Char) else ['\n']) = [] := by
        simp
      rw [hif, List.nil_append, skipWs_close_self]
      have := leadMatch_append_self (closeTag sadpName) []
      simpa using this
    | cons d ds =>
      have hif : (if (d :: ds).isEmpty then ([] : List Char) else ['\n']) = ['\n'] := by
        simp
      rw [hif, List.singleton_append, skipWs_nl, skipWs_close_self]
      have := leadMatch_append_self (closeTag sadpName) []
      simpa using this
  have hfuel : devs.length <
      (devicesXML devs ++ ((if devs.isEmpty then [] else ['\n']) ++ closeTag sadpName)).length
        + 1 := by
    rw [List.length_append]
    have := devicesXML_len_ge devs
    omega
  rw [parseDevices_round devs _ _ hfuel hstop]
  simp only [Option.bind_eq_bind, Option.some_bind]
  have hskip : skipWs ((if devs.isEmpty then [] else ['\n']) ++ closeTag sadpName) =
      closeTag sadpName := by
    cases devs with
    | nil =>
      have hif : (if ([] : List Device).isEmpty then ([] : List Char) else ['\n']) = [] := by
        simp
      rw [hif, List.nil_append]
      exact skipWs_close_self _
    | cons d ds =>
      have hif : (if (d :: ds).isEmpty then ([] : List Char) else ['\n']) = ['\n'] := by
        simp
      rw [hif, List.singleton_append, skipWs_nl, skipWs_close_self]
  rw [hskip]
  have hclose : expectTok (closeTag sadpName) (closeTag sadpName) = some [] := by
    have := expectTok_append (closeTag sadpName) []
    simpa using this
  rw [hclose]
  simp

/-- **C8 counterexample**: the claim says the round trip reproduces *every*
populated input field; but `AdapterIP` and `ReceivedTime` are tagged
`xml:"-"` and never serialized, so a device with `AdapterIP = "10.0.0.9"`
parses back with `AdapterIP = ""` — a different device value. -/
theorem C8_counterexample :
    parseSADPXML (ToXML [cexDevice]) = some ("2.0", [stripLocal cexDevice]) ∧
    stripLocal cexDevice ≠ cexDevice ∧
    parseSADPXML (ToXML [cexDevice]) ≠ some ("2.0", [cexDevice]) := by
  have h := toXML_parse_round [cexDevice]
  refine ⟨by simpa using h, by decide, ?_⟩
  rw [h]
  decide

/-- **C8 (amended)**: `ToXML` wraps the devices in a `SADPDeviceList` envelope
carrying `version="2.0"` and prepends the standard XML declaration; parsed
back against the Device schema (fields in schema order, chardata unescaped,
children being the `ProbeMatch` elements named by the `XMLName` field tag),
the result reproduces every XML-mapped input field of every device — in
particular MAC, IPv4 address and Activated — while the two `xml:"-"` fields
(`AdapterIP`, `ReceivedTime`) come back as zero values, not their input
values. -/
theorem C8_toxml_roundtrip_amended :
    ∀ devs : List Device,
      parseSADPXML (ToXML devs) = some ("2.0", devs.map stripLocal) ∧
      devs.map (fun d => ((stripLocal d).MAC, (stripLocal d).IPv4Address,
        (stripLocal d).Activated)) =
        devs.map (fun d => (d.MAC, d.IPv4Address, d.Activated)) ∧
      leadMatch xmlHeaderStr.data (ToXML devs).data = true := by
  intro devs
  refine ⟨toXML_parse_round devs, rfl, ?_⟩
  show leadMatch xmlHeaderStr.data (xmlHeaderStr ++ _).data = true
  rw [String.data_append]
  exact leadMatch_append_self _ _

end Hik
